import Mathlib

/-!
Verification development for the NUX virtual machine and the LUX compiler
(Go repository `rmay/nuxvm`).  The Go source is shallowly embedded:

* machine bytes are `Nat` values below 256, 32-bit signed integers are `Int`
  values normalised into `[-2^31, 2^31)` by `toInt32`;
* the VM's mutable state (`vm.go`, struct `VM`) becomes the record `VMState`;
  the Go data stack and return stack are slices whose last element is the
  top, here they are lists whose HEAD is the top of the stack;
* bytes written by `OUT` to stdout are accumulated in the `output` field;
* Go loops become fuel-indexed recursion; the fuel chosen at every call site
  is large enough that it is never exhausted on inputs the Go code
  terminates on (for the compiler's first pass the Go source itself bounds
  the iteration count, and that bound is reproduced literally);
* Go's `error` returns become `Option VMErr` / `Except` over small error
  inductives; an error constructor records which `fmt.Errorf` site fired,
  the formatted message text is not modelled.  Because the Go methods
  mutate the machine through the receiver before an error return, every
  stepping function here returns the (possibly mutated) state together with
  the optional error.
-/

namespace Nux

/-- Maximum number of elements in the data stack (`MaxStackSize` in vm.go). -/
def MaxStackSize : Nat := 8192

/-- Declared return-stack bound (`MaxReturnStackSize` in vm.go).  The Go
source declares this constant but never reads it. -/
def MaxReturnStackSize : Nat := 1024

/-- Size of the reserved memory region (`ReservedMemorySize` in vm.go). -/
def ReservedMemorySize : Nat := 4096

/-- Offset at which the user program is loaded (`UserMemoryOffset`). -/
def UserMemoryOffset : Nat := ReservedMemorySize

/-! Opcode constants from `opcodes.go`. -/

def OpPush : Nat := 0x00
def OpPop : Nat := 0x01
def OpDup : Nat := 0x02
def OpSwap : Nat := 0x03
def OpRoll : Nat := 0x04
def OpRot : Nat := 0x05
def OpAdd : Nat := 0x06
def OpSub : Nat := 0x07
def OpMul : Nat := 0x08
def OpDiv : Nat := 0x09
def OpMod : Nat := 0x0A
def OpInc : Nat := 0x0B
def OpDec : Nat := 0x0C
def OpNeg : Nat := 0x0D
def OpAnd : Nat := 0x0E
def OpOr : Nat := 0x0F
def OpXor : Nat := 0x10
def OpNot : Nat := 0x11
def OpShl : Nat := 0x12
def OpEq : Nat := 0x13
def OpLt : Nat := 0x14
def OpGt : Nat := 0x15
def OpCallStack : Nat := 0x16
def OpJmp : Nat := 0x17
def OpJz : Nat := 0x18
def OpJnz : Nat := 0x19
def OpCall : Nat := 0x1A
def OpRet : Nat := 0x1B
def OpLoad : Nat := 0x1C
def OpStore : Nat := 0x1D
def OpOut : Nat := 0x1E
def OpHalt : Nat := 0x1F

/-- Normalise an integer into the 32-bit two's-complement range, i.e. the
value of Go's wrap-around arithmetic on `int32`. -/
def toInt32 (n : Int) : Int :=
  (n + 2147483648) % 4294967296 - 2147483648

/-- Go conversion `uint32(v)` of a (32-bit) signed value, as a `Nat`. -/
def u32OfInt (v : Int) : Nat :=
  (v % 4294967296).toNat

/-- Reinterpret an unsigned 32-bit value as Go's `int32` (big-endian operand
decoding ends with this conversion, and so does `int32(vm.pc)`). -/
def decodeI32 (u : Nat) : Int :=
  if u < 2147483648 then (u : Int) else (u : Int) - 4294967296

/-- Go's `int32(p)` for the `uint32` program counter. -/
def pcToI32 (p : Nat) : Int :=
  decodeI32 (p % 4294967296)

/-- Big-endian read of 4 bytes at position `p` of the VM memory
(`binary.BigEndian.Uint32`).  Memory is modelled as its indexing function;
every call site checks bounds first, mirroring the Go slice-expression
bounds that are checked before the read. -/
def readU32 (m : Nat → Nat) (p : Nat) : Nat :=
  m p * 16777216 + m (p + 1) * 65536 + m (p + 2) * 256 + m (p + 3)

/-- Big-endian read of 4 bytes at position `p` of a byte list (used by the
compiler, whose bytecode buffer is short enough to stay a list). -/
def readU32L (m : List Nat) (p : Nat) : Nat :=
  m.getD p 0 * 16777216 + m.getD (p + 1) 0 * 65536 +
    m.getD (p + 2) 0 * 256 + m.getD (p + 3) 0

/-- Pointwise update of the memory function (an indexed Go slice write). -/
def memWrite (m : Nat → Nat) (i b : Nat) : Nat → Nat :=
  fun j => if j = i then b else m j

/-- Big-endian encoding of an `int32` into 4 bytes (`vm.EncodeInt32`). -/
def encodeInt32 (v : Int) : List Nat :=
  let u := u32OfInt v
  [u / 16777216 % 256, u / 65536 % 256, u / 256 % 256, u % 256]

/-- Overwrite `bs` into the list `m` starting at index `i` (models Go's
`copy` into a byte-slice window and `binary.BigEndian.PutUint32`). -/
def setBytes : List Nat → Nat → List Nat → List Nat
  | m, _, [] => m
  | m, i, b :: bs => setBytes (m.set i b) (i + 1) bs

/-- Big-endian write of an unsigned 32-bit value at position `p` of the VM
memory (`binary.BigEndian.PutUint32`). -/
def writeU32 (m : Nat → Nat) (p : Nat) (u : Nat) : Nat → Nat :=
  memWrite (memWrite (memWrite (memWrite m p (u / 16777216 % 256))
    (p + 1) (u / 65536 % 256)) (p + 2) (u / 256 % 256)) (p + 3) (u % 256)

/-- Runtime error sites of vm.go, one constructor per distinct trap kind.
The `String` payload names the opcode whose handler produced the error,
matching the operation named in the Go message. -/
inductive VMErr where
  | underflow (op : String)
  | overflow
  | retOverflow
  | retUnderflow
  | divZero
  | modZero
  | operand (op : String)
  | loadOOB
  | storeOOB
  | callAddrOOB
  | unknownOp (b : Nat)
  | pcOOB
  deriving DecidableEq, Repr

/-- The VM state (struct `VM` in vm.go).  `stack` and `returnStack` keep the
top of the stack at the HEAD of the list (Go appends the top at the end of a
slice).  The byte array `memory` is modelled by its indexing function
together with its length `memLen` (Go's `len(vm.memory)`); `output` collects
the bytes the Go code writes to stdout. -/
structure VMState where
  stack : List Int
  returnStack : List Int
  memory : Nat → Nat
  memLen : Nat
  pc : Nat
  running : Bool
  reservedMemorySize : Nat
  userMemoryStart : Nat
  output : List Nat

/-- `NewVM`: reserved region of zeroes followed by the program; execution
starts at `UserMemoryOffset`. -/
def newVM (program : List Nat) : VMState :=
  { stack := []
    returnStack := []
    memory := fun i => if i < ReservedMemorySize then 0
      else program.getD (i - ReservedMemorySize) 0
    memLen := ReservedMemorySize + program.length
    pc := UserMemoryOffset
    running := true
    reservedMemorySize := ReservedMemorySize
    userMemoryStart := UserMemoryOffset
    output := [] }

/-- `Push` method: bounded push onto the data stack; no mutation on error. -/
def vmPush (s : VMState) (value : Int) : VMState × Option VMErr :=
  if s.stack.length ≥ MaxStackSize then (s, some .overflow)
  else ({ s with stack := value :: s.stack }, none)

/-- `Pop` method: pop the top of the data stack, returning 0 on underflow as
the Go method does. -/
def vmPop (s : VMState) : Int × VMState × Option VMErr :=
  match s.stack with
  | [] => (0, s, some (.underflow "POP"))
  | v :: rest => (v, { s with stack := rest }, none)

/-- `Dup` method: peek the top value and `Push` it. -/
def vmDup (s : VMState) : VMState × Option VMErr :=
  match s.stack with
  | [] => (s, some (.underflow "DUP"))
  | v :: _ => vmPush s v

/-- `Swap` method: swap the top two values in place. -/
def vmSwap (s : VMState) : VMState × Option VMErr :=
  match s.stack with
  | b :: a :: rest => ({ s with stack := a :: b :: rest }, none)
  | _ => (s, some (.underflow "SWAP"))

/-- `Roll` method: `Push` a copy of the second-from-top value. -/
def vmRoll (s : VMState) : VMState × Option VMErr :=
  match s.stack with
  | _ :: a :: _ => vmPush s a
  | _ => (s, some (.underflow "ROLL"))

/-- `Rot` method: rotate the top three values in place, `[a b c] → [b c a]`
in Go's bottom-to-top notation. -/
def vmRot (s : VMState) : VMState × Option VMErr :=
  match s.stack with
  | c :: b :: a :: rest => ({ s with stack := a :: c :: b :: rest }, none)
  | _ => (s, some (.underflow "ROT"))

/-- Shared shape of the binary arithmetic/bitwise/comparison methods: check
for two operands (with the method's own message), `Pop` `b` then `a`, and
`Push` `f a b`.  After the length check the pops cannot fail and the push
cannot overflow, exactly as in the Go methods. -/
def vmBinop (name : String) (f : Int → Int → Int) (s : VMState) :
    VMState × Option VMErr :=
  if s.stack.length < 2 then (s, some (.underflow name))
  else
    match vmPop s with
    | (b, s1, some e) => (s1, some e)
    | (b, s1, none) =>
      match vmPop s1 with
      | (a, s2, some e) => (s2, some e)
      | (a, s2, none) => vmPush s2 (f a b)

/-- `Add` method (wrap-around 32-bit). -/
def vmAdd : VMState → VMState × Option VMErr :=
  vmBinop "ADD" (fun a b => toInt32 (a + b))

/-- `Sub` method. -/
def vmSub : VMState → VMState × Option VMErr :=
  vmBinop "SUB" (fun a b => toInt32 (a - b))

/-- `Mul` method. -/
def vmMul : VMState → VMState × Option VMErr :=
  vmBinop "MUL" (fun a b => toInt32 (a * b))

/-- `Div` method: after its length check it pops `b` and traps on `b = 0`
BEFORE popping `a`, so the trap state has lost the divisor but kept the
dividend; otherwise it pops `a` and pushes the Go (truncated) quotient. -/
def vmDiv (s : VMState) : VMState × Option VMErr :=
  if s.stack.length < 2 then (s, some (.underflow "DIV"))
  else
    match vmPop s with
    | (b, s1, some e) => (s1, some e)
    | (b, s1, none) =>
      if b = 0 then (s1, some .divZero)
      else
        match vmPop s1 with
        | (a, s2, some e) => (s2, some e)
        | (a, s2, none) => vmPush s2 (toInt32 (Int.tdiv a b))

/-- `Mod` method: same trap discipline as `Div`, with Go's truncated
remainder. -/
def vmMod (s : VMState) : VMState × Option VMErr :=
  if s.stack.length < 2 then (s, some (.underflow "MOD"))
  else
    match vmPop s with
    | (b, s1, some e) => (s1, some e)
    | (b, s1, none) =>
      if b = 0 then (s1, some .modZero)
      else
        match vmPop s1 with
        | (a, s2, some e) => (s2, some e)
        | (a, s2, none) => vmPush s2 (toInt32 (Int.tmod a b))

/-- Shared shape of the unary methods: check one operand, `Pop`, `Push`. -/
def vmUnop (name : String) (f : Int → Int) (s : VMState) :
    VMState × Option VMErr :=
  if s.stack.length < 1 then (s, some (.underflow name))
  else
    match vmPop s with
    | (v, s1, some e) => (s1, some e)
    | (v, s1, none) => vmPush s1 (f v)

/-- `Inc` method. -/
def vmInc : VMState → VMState × Option VMErr :=
  vmUnop "INC" (fun v => toInt32 (v + 1))

/-- `Dec` method. -/
def vmDec : VMState → VMState × Option VMErr :=
  vmUnop "DEC" (fun v => toInt32 (v - 1))

/-- `Neg` method. -/
def vmNeg : VMState → VMState × Option VMErr :=
  vmUnop "NEG" (fun v => toInt32 (-v))

/-- `And` method (bitwise on two's-complement integers; the result of a
bitwise operation on two in-range `int32` values is again in range). -/
def vmAnd : VMState → VMState × Option VMErr :=
  vmBinop "AND" (fun a b => Int.land a b)

/-- `Or` method. -/
def vmOr : VMState → VMState × Option VMErr :=
  vmBinop "OR" (fun a b => Int.lor a b)

/-- `Xor` method. -/
def vmXor : VMState → VMState × Option VMErr :=
  vmBinop "XOR" (fun a b => Int.xor a b)

/-- `Not` method: Go's `^value` on a signed integer is `-(value + 1)`. -/
def vmNot : VMState → VMState × Option VMErr :=
  vmUnop "NOT" (fun v => -(v + 1))

/-- The shift count Go computes in `Shl`: `uint32(b % 32)` with Go's
truncated remainder, so a negative `b` that is not a multiple of 32 yields
a count of at least `2^32 - 31`. -/
def goShlCount (b : Int) : Nat :=
  u32OfInt (Int.tmod b 32)

/-- Go's `a << count` for `a : int32`: each single shift doubles and wraps,
so a count of 32 or more gives 0 and otherwise the product wraps into
32 bits. -/
def goShl32 (a : Int) (count : Nat) : Int :=
  if count ≥ 32 then 0 else toInt32 (a * 2 ^ count)

/-- `Shl` method: pops `b` then `a` and pushes `a << uint32(b % 32)`. -/
def vmShl : VMState → VMState × Option VMErr :=
  vmBinop "SHL" (fun a b => goShl32 a (goShlCount b))

/-- `Eq` method. -/
def vmEq : VMState → VMState × Option VMErr :=
  vmBinop "EQ" (fun a b => if a = b then 1 else 0)

/-- `Lt` method (signed comparison). -/
def vmLt : VMState → VMState × Option VMErr :=
  vmBinop "LT" (fun a b => if a < b then 1 else 0)

/-- `Gt` method (signed comparison). -/
def vmGt : VMState → VMState × Option VMErr :=
  vmBinop "GT" (fun a b => if a > b then 1 else 0)

/-- `Load` method: reads the 4-byte operand address at the PC, then the
4-byte value at that address, advances the PC and only then `Push`es, so an
overflow error would leave the PC already advanced. -/
def vmLoad (s : VMState) : VMState × Option VMErr :=
  if s.pc + 4 > s.memLen then (s, some (.operand "LOAD"))
  else
    let address := readU32 s.memory s.pc
    if address + 4 > s.memLen then (s, some .loadOOB)
    else
      let value := decodeI32 (readU32 s.memory address)
      vmPush { s with pc := s.pc + 4 } value

/-- `Store` method: pops a value FIRST, then reads the operand address,
writes the value there as 4 big-endian bytes and advances the PC; a bounds
error therefore leaves the value already popped. -/
def vmStore (s : VMState) : VMState × Option VMErr :=
  match s.stack with
  | [] => (s, some (.underflow "STORE"))
  | value :: rest =>
    let s1 : VMState := { s with stack := rest }
    if s1.pc + 4 > s1.memLen then (s1, some (.operand "STORE"))
    else
      let address := readU32 s1.memory s1.pc
      if address + 4 > s1.memLen then (s1, some .storeOOB)
      else
        ({ s1 with
            memory := writeU32 s1.memory address (u32OfInt value)
            pc := s1.pc + 4 }, none)

/-- Decimal bytes Go's `fmt.Printf("%d", value)` writes for a signed value. -/
def decimalBytes (v : Int) : List Nat :=
  (toString v).data.map Char.toNat

/-- UTF-8 encoding of a code point, with `utf8.EncodeRune`'s behaviour of
encoding the replacement character U+FFFD for surrogate code points. -/
def utf8EncodeRune (r : Nat) : List Nat :=
  if r < 128 then [r]
  else if r < 2048 then [192 + r / 64, 128 + r % 64]
  else if 55296 ≤ r ∧ r ≤ 57343 then [239, 191, 189]
  else if r < 65536 then [224 + r / 4096, 128 + r / 64 % 64, 128 + r % 64]
  else [240 + r / 262144, 128 + r / 4096 % 64, 128 + r / 64 % 64, 128 + r % 64]

/-- Bytes Go's `fmt.Printf("%c", value)` writes for a signed value: the
value is taken as a Unicode code point (negative or too-large values become
U+FFFD) and encoded as UTF-8. -/
def goFmtC (v : Int) : List Nat :=
  if v < 0 ∨ v > 1114111 then utf8EncodeRune 65533
  else utf8EncodeRune v.toNat

/-- `Out` method: checks for two operands, pops a format flag, then a value;
format 1 writes the value via `%c`, any other format writes it via `%d`. -/
def vmOut (s : VMState) : VMState × Option VMErr :=
  if s.stack.length < 2 then (s, some (.underflow "OUT"))
  else
    match vmPop s with
    | (format, s1, _) =>
      match vmPop s1 with
      | (value, s2, some e) => (s2, some e)
      | (value, s2, none) =>
        let bytes := if format = 1 then goFmtC value else decimalBytes value
        ({ s2 with output := s2.output ++ bytes }, none)

/-- `ExecuteInstruction`: fetch the opcode byte, advance the PC, dispatch.
Mirrors the Go `switch` including the cases that are inlined there rather
than delegated to a method (PUSH, CALLSTACK, JMP, JZ, JNZ, CALL, RET, HALT);
note that the inlined PUSH case appends WITHOUT the `Push` method's overflow
check, and the inlined CALL case pushes the return address WITHOUT any
return-stack overflow check.  The returned state reflects every mutation
made before a trap fired. -/
def executeInstruction (s : VMState) : VMState × Option VMErr :=
  if s.pc ≥ s.memLen then (s, some .pcOOB)
  else
    let opcode := s.memory s.pc
    let s1 : VMState := { s with pc := s.pc + 1 }
    if opcode = OpPush then
      if s1.pc + 3 ≥ s1.memLen then (s1, some (.operand "PUSH"))
      else
        let value := decodeI32 (readU32 s1.memory s1.pc)
        ({ s1 with stack := value :: s1.stack, pc := s1.pc + 4 }, none)
    else if opcode = OpPop then
      match vmPop s1 with
      | (_, s2, e) => (s2, e)
    else if opcode = OpDup then vmDup s1
    else if opcode = OpSwap then vmSwap s1
    else if opcode = OpRoll then vmRoll s1
    else if opcode = OpRot then vmRot s1
    else if opcode = OpAdd then vmAdd s1
    else if opcode = OpSub then vmSub s1
    else if opcode = OpMul then vmMul s1
    else if opcode = OpDiv then vmDiv s1
    else if opcode = OpMod then vmMod s1
    else if opcode = OpInc then vmInc s1
    else if opcode = OpDec then vmDec s1
    else if opcode = OpNeg then vmNeg s1
    else if opcode = OpAnd then vmAnd s1
    else if opcode = OpOr then vmOr s1
    else if opcode = OpXor then vmXor s1
    else if opcode = OpNot then vmNot s1
    else if opcode = OpShl then vmShl s1
    else if opcode = OpEq then vmEq s1
    else if opcode = OpLt then vmLt s1
    else if opcode = OpGt then vmGt s1
    else if opcode = OpCallStack then
      if s1.stack.length < 1 then (s1, some (.underflow "CALLSTACK"))
      else if s1.returnStack.length ≥ MaxStackSize then (s1, some .retOverflow)
      else
        match vmPop s1 with
        | (addr, s2, _) =>
          if addr ≥ (s2.memLen : Int) ∨
              addr < (s2.userMemoryStart : Int) then
            (s2, some .callAddrOOB)
          else
            ({ s2 with returnStack := pcToI32 s2.pc :: s2.returnStack
                       pc := u32OfInt addr }, none)
    else if opcode = OpJmp then
      if s1.pc + 3 ≥ s1.memLen then (s1, some (.operand "JMP"))
      else
        let addr := decodeI32 (readU32 s1.memory s1.pc)
        ({ s1 with pc := u32OfInt addr }, none)
    else if opcode = OpJz then
      if s1.pc + 3 ≥ s1.memLen then (s1, some (.operand "JZ"))
      else
        let addr := decodeI32 (readU32 s1.memory s1.pc)
        match s1.stack with
        | [] => (s1, some (.underflow "JZ"))
        | cond :: rest =>
          if cond = 0 then ({ s1 with stack := rest, pc := u32OfInt addr }, none)
          else ({ s1 with stack := rest, pc := s1.pc + 4 }, none)
    else if opcode = OpJnz then
      if s1.pc + 3 ≥ s1.memLen then (s1, some (.operand "JNZ"))
      else
        let addr := decodeI32 (readU32 s1.memory s1.pc)
        match s1.stack with
        | [] => (s1, some (.underflow "JNZ"))
        | cond :: rest =>
          if cond ≠ 0 then ({ s1 with stack := rest, pc := u32OfInt addr }, none)
          else ({ s1 with stack := rest, pc := s1.pc + 4 }, none)
    else if opcode = OpCall then
      if s1.pc + 3 ≥ s1.memLen then (s1, some (.operand "CALL"))
      else
        let addr := decodeI32 (readU32 s1.memory s1.pc)
        ({ s1 with returnStack := pcToI32 (s1.pc + 4) :: s1.returnStack
                   pc := u32OfInt addr }, none)
    else if opcode = OpRet then
      match s1.returnStack with
      | [] => (s1, some .retUnderflow)
      | address :: rest =>
        ({ s1 with returnStack := rest, pc := u32OfInt address }, none)
    else if opcode = OpLoad then vmLoad s1
    else if opcode = OpStore then vmStore s1
    else if opcode = OpOut then vmOut s1
    else if opcode = OpHalt then ({ s1 with running := false }, none)
    else (s1, some (.unknownOp opcode))

/-- `Run`: execute instructions while the VM is running and the PC is in
bounds; a trap ends the run immediately with that error.  The recursion is
driven by a fuel parameter; exhausted fuel returns the current state without
an error (only ever reached when the Go loop would still be spinning). -/
def runFuel : Nat → VMState → VMState × Option VMErr
  | 0, s => (s, none)
  | n + 1, s =>
    if s.running ∧ s.pc < s.memLen then
      match executeInstruction s with
      | (s1, some e) => (s1, some e)
      | (s1, none) => runFuel n s1
    else (s, none)

/-! ## Lexer (pkg/lux/lexer.go)

The input is the source text as a list of bytes (Go indexes the source
string byte-wise).  ASCII byte classification mirrors the `unicode`
predicates applied to `rune(ch)` for a single byte `ch`, including the
Latin-1 code points 0x85 and 0xA0 for whitespace. -/

/-- `unicode.IsSpace(rune(ch))` for a byte. -/
def isSpaceByte (b : Nat) : Bool :=
  b = 9 ∨ b = 10 ∨ b = 11 ∨ b = 12 ∨ b = 13 ∨ b = 32 ∨ b = 133 ∨ b = 160

/-- `unicode.IsDigit(rune(ch))` for a byte. -/
def isDigitByte (b : Nat) : Bool :=
  48 ≤ b ∧ b ≤ 57

/-- `unicode.IsLetter(rune(ch))` for a byte (ASCII letters plus the Latin-1
letters, matching `unicode.IsLetter` on code points below 256). -/
def isLetterByte (b : Nat) : Bool :=
  (65 ≤ b ∧ b ≤ 90) ∨ (97 ≤ b ∧ b ≤ 122) ∨ b = 170 ∨ b = 181 ∨ b = 186 ∨
    (192 ≤ b ∧ b ≤ 214) ∨ (216 ≤ b ∧ b ≤ 246) ∨ (248 ≤ b ∧ b ≤ 255)

/-- `isHexDigit` from lexer.go. -/
def isHexDigitB (b : Nat) : Bool :=
  isDigitByte b ∨ (97 ≤ b ∧ b ≤ 102) ∨ (65 ≤ b ∧ b ≤ 70)

/-- Bytes of an ASCII string literal, used to write the Go string constants
the lexer and compiler compare against. -/
def strB (s : String) : List Nat :=
  s.data.map Char.toNat

/-- `strings.ToUpper` restricted to ASCII input bytes (all names the
compiler handles are ASCII). -/
def toUpperB (w : List Nat) : List Nat :=
  w.map (fun b => if 97 ≤ b ∧ b ≤ 122 then b - 32 else b)

/-- Token kinds (`TokenType` in lexer.go). -/
inductive TokenType where
  | number
  | word
  | atSign
  | semicolon
  | comment
  | string
  | lbracket
  | rbracket
  | eof
  deriving DecidableEq, Repr

/-- A lexical token (`Token` in lexer.go); `value` is the raw byte text. -/
structure Token where
  type : TokenType
  value : List Nat
  line : Nat
  column : Nat
  deriving DecidableEq, Repr

/-- Lexer errors, one constructor per `fmt.Errorf` site in lexer.go, plus a
fuel marker that is unreachable for the fuel the entry points supply. -/
inductive LexErr where
  | unclosedString (line col : Nat)
  | unexpectedEndOfString (line : Nat)
  | unclosedComment (line col : Nat)
  | emptyWord (line col : Nat)
  | fuel
  deriving DecidableEq, Repr

/-- Lexer state (`Lexer` in lexer.go, minus the trace flag). -/
structure Lexer where
  input : List Nat
  pos : Nat
  line : Nat
  column : Nat
  deriving Repr

/-- `peek`: current byte without advancing (0 at end of input). -/
def Lexer.peek (l : Lexer) : Nat :=
  if l.pos ≥ l.input.length then 0 else l.input.getD l.pos 0

/-- `advance`: move to the next byte, maintaining line/column. -/
def Lexer.advance (l : Lexer) : Nat × Lexer :=
  if l.pos ≥ l.input.length then (0, l)
  else
    let ch := l.input.getD l.pos 0
    if ch = 10 then (ch, { l with pos := l.pos + 1, line := l.line + 1, column := 1 })
    else (ch, { l with pos := l.pos + 1, column := l.column + 1 })

/-- `skipWhitespace`. -/
def skipWhitespace : Nat → Lexer → Lexer
  | 0, l => l
  | n + 1, l =>
    if l.pos < l.input.length ∧ isSpaceByte l.peek then
      skipWhitespace n (l.advance).2
    else l

/-- Loop body of `readString`: accumulate bytes until the closing quote,
processing the four escape sequences. -/
def readStringLoop : Nat → Lexer → List Nat → Nat → Nat →
    Except LexErr (Token × Lexer)
  | 0, _, _, _, _ => .error .fuel
  | n + 1, l, acc, startLine, startCol =>
    if l.pos ≥ l.input.length then .error (.unclosedString startLine startCol)
    else
      let ch := l.peek
      if ch = 34 then
        .ok (⟨.string, acc, startLine, startCol⟩, (l.advance).2)
      else if ch = 92 then
        let l1 := (l.advance).2
        if l1.pos ≥ l1.input.length then .error (.unexpectedEndOfString startLine)
        else
          match l1.advance with
          | (next, l2) =>
            let b :=
              if next = 110 then 10
              else if next = 116 then 9
              else if next = 92 then 92
              else if next = 34 then 34
              else next
            readStringLoop n l2 (acc ++ [b]) startLine startCol
      else
        match l.advance with
        | (c, l1) => readStringLoop n l1 (acc ++ [c]) startLine startCol

/-- `readString`: skip the opening quote and run the loop. -/
def readString (l : Lexer) : Except LexErr (Token × Lexer) :=
  readStringLoop (l.input.length + 1) (l.advance).2 [] l.line l.column

/-- Loop body of `readComment`: balanced `( ... )` comments; the closing
parenthesis of the outermost level is skipped without being recorded. -/
def readCommentLoop : Nat → Lexer → List Nat → Nat → Except LexErr (Lexer × List Nat)
  | 0, _, _, _ => .error .fuel
  | n + 1, l, acc, depth =>
    if l.pos < l.input.length ∧ depth > 0 then
      let ch := l.peek
      if ch = 40 then
        match l.advance with
        | (c, l1) => readCommentLoop n l1 (acc ++ [c]) (depth + 1)
      else if ch = 41 then
        if depth = 1 then .ok ((l.advance).2, acc)
        else
          match l.advance with
          | (c, l1) => readCommentLoop n l1 (acc ++ [c]) (depth - 1)
      else
        match l.advance with
        | (c, l1) => readCommentLoop n l1 (acc ++ [c]) depth
    else
      if depth > 0 then .error (.unclosedComment 0 0)
      else .ok (l, acc)

/-- `readComment`: skip `(` and run the loop; an unclosed comment reports
the comment's start position. -/
def readComment (l : Lexer) : Except LexErr (Token × Lexer) :=
  let startLine := l.line
  let startCol := l.column
  match readCommentLoop (l.input.length + 1) (l.advance).2 [] 1 with
  | .error (.unclosedComment _ _) => .error (.unclosedComment startLine startCol)
  | .error e => .error e
  | .ok (l1, acc) => .ok (⟨.comment, acc, startLine, startCol⟩, l1)

/-- Loop body of `readLineComment`: bytes up to (not including) a newline. -/
def readLineCommentLoop : Nat → Lexer → List Nat → Lexer × List Nat
  | 0, l, acc => (l, acc)
  | n + 1, l, acc =>
    if l.pos < l.input.length ∧ l.peek ≠ 10 then
      match l.advance with
      | (c, l1) => readLineCommentLoop n l1 (acc ++ [c])
    else (l, acc)

/-- `readLineComment`: skip the two slashes and collect the rest of the line. -/
def readLineComment (l : Lexer) : Token × Lexer :=
  let startLine := l.line
  let startCol := l.column
  let l1 := ((l.advance).2.advance).2
  match readLineCommentLoop (l1.input.length + 1) l1 [] with
  | (l2, acc) => (⟨.comment, acc, startLine, startCol⟩, l2)

/-- `readSingleChar`. -/
def readSingleChar (l : Lexer) (t : TokenType) : Token × Lexer :=
  (⟨t, [l.peek], l.line, l.column⟩, (l.advance).2)

/-- Hex-digit loop of `readNumber`. -/
def readNumberHexLoop : Nat → Lexer → List Nat → Lexer × List Nat
  | 0, l, acc => (l, acc)
  | n + 1, l, acc =>
    if l.pos < l.input.length ∧ isHexDigitB l.peek then
      match l.advance with
      | (c, l1) => readNumberHexLoop n l1 (acc ++ [c])
    else (l, acc)

/-- Decimal-digit loop of `readNumber`. -/
def readNumberDecLoop : Nat → Lexer → List Nat → Lexer × List Nat
  | 0, l, acc => (l, acc)
  | n + 1, l, acc =>
    if l.pos < l.input.length ∧ isDigitByte l.peek then
      match l.advance with
      | (c, l1) => readNumberDecLoop n l1 (acc ++ [c])
    else (l, acc)

/-- `readNumber`: optional minus sign, then either `0x`/`0X` and hex digits
or decimal digits.  Note the `-0x...` case takes the hex branch in the
LEXER (producing a single token with the full text) even though
`ParseNumber` later refuses it. -/
def readNumber (l : Lexer) : Token × Lexer :=
  let startLine := l.line
  let startCol := l.column
  let (acc0, l0) := if l.peek = 45 then ([45], (l.advance).2) else ([], l)
  if l0.peek = 48 ∧ l0.pos + 1 < l0.input.length ∧
      (l0.input.getD (l0.pos + 1) 0 = 120 ∨ l0.input.getD (l0.pos + 1) 0 = 88) then
    let (c1, l1) := l0.advance
    let (c2, l2) := l1.advance
    match readNumberHexLoop (l2.input.length + 1) l2 (acc0 ++ [c1, c2]) with
    | (l3, acc) => (⟨.number, acc, startLine, startCol⟩, l3)
  else
    match readNumberDecLoop (l0.input.length + 1) l0 acc0 with
    | (l3, acc) => (⟨.number, acc, startLine, startCol⟩, l3)

/-- One step of `readWord`'s scanning loop; returns the accumulated word
bytes and the lexer after the loop. -/
def readWordLoop : Nat → Lexer → List Nat → Nat → Lexer × List Nat
  | 0, l, acc, _ => (l, acc)
  | n + 1, l, acc, startCol =>
    if l.pos ≥ l.input.length then (l, acc)
    else
      let ch := l.peek
      if isSpaceByte ch ∨ ch = 40 ∨ ch = 41 ∨ ch = 59 ∨ ch = 64 ∨ ch = 34 ∨
          ch = 91 ∨ ch = 93 then (l, acc)
      else if ch = 58 ∧ l.pos > startCol then
        match l.advance with
        | (c, l1) => readWordLoop n l1 (acc ++ [c]) startCol
      else if ch = 58 ∧ l.pos + 1 < l.input.length ∧
          l.input.getD (l.pos + 1) 0 = 58 then
        match l.advance with
        | (c1, l1) =>
          match l1.advance with
          | (c2, l2) => readWordLoop n l2 (acc ++ [c1, c2]) startCol
      else if isLetterByte ch ∨ isDigitByte ch ∨ ch = 95 ∨ ch = 43 ∨ ch = 45 ∨
          ch = 42 ∨ ch = 47 ∨ ch = 37 ∨ ch = 38 ∨ ch = 124 ∨ ch = 94 ∨
          ch = 33 ∨ ch = 63 ∨ ch = 62 ∨ ch = 60 ∨ ch = 46 ∨ ch = 61 then
        match l.advance with
        | (c, l1) => readWordLoop n l1 (acc ++ [c]) startCol
      else (l, acc)

/-- `readWord`: maximal run of word bytes; empty runs are an error.  The
single-colon condition compares the byte POSITION against the start COLUMN
exactly as the Go source does. -/
def readWord (l : Lexer) : Except LexErr (Token × Lexer) :=
  let startLine := l.line
  let startCol := l.column
  match readWordLoop (l.input.length + 1) l [] startCol with
  | (l1, value) =>
    if value = [] then .error (.emptyWord startLine startCol)
    else .ok (⟨.word, value, startLine, startCol⟩, l1)

/-- `isNumberStart`. -/
def isNumberStart (l : Lexer) (ch : Nat) : Bool :=
  isDigitByte ch ∨
    (ch = 45 ∧ l.pos + 1 < l.input.length ∧ isDigitByte (l.input.getD (l.pos + 1) 0))

/-- Emit one of the two-character combinator tokens (`?:` `!:` `|:` `#:`). -/
def twoCharToken (l : Lexer) (a b : Nat) : Token × Lexer :=
  (⟨.word, [a, b], l.line, l.column⟩,
    { l with pos := l.pos + 2, column := l.column + 2 })

/-- `NextToken`: dispatch on the first non-whitespace byte. -/
def nextToken (l : Lexer) : Except LexErr (Token × Lexer) :=
  let l := skipWhitespace (l.input.length + 1) l
  if l.pos ≥ l.input.length then .ok (⟨.eof, [], l.line, l.column⟩, l)
  else
    let ch := l.peek
    if ch = 40 then readComment l
    else if ch = 47 ∧ l.pos + 1 < l.input.length ∧ l.input.getD (l.pos + 1) 0 = 47 then
      .ok (readLineComment l)
    else if ch = 34 then readString l
    else if ch = 64 then .ok (readSingleChar l .atSign)
    else if ch = 59 then .ok (readSingleChar l .semicolon)
    else if ch = 91 then .ok (readSingleChar l .lbracket)
    else if ch = 93 then .ok (readSingleChar l .rbracket)
    else if isNumberStart l ch then .ok (readNumber l)
    else if ch = 63 ∧ l.pos + 1 < l.input.length ∧ l.input.getD (l.pos + 1) 0 = 58 then
      .ok (twoCharToken l 63 58)
    else if ch = 33 ∧ l.pos + 1 < l.input.length ∧ l.input.getD (l.pos + 1) 0 = 58 then
      .ok (twoCharToken l 33 58)
    else if ch = 124 ∧ l.pos + 1 < l.input.length ∧ l.input.getD (l.pos + 1) 0 = 58 then
      .ok (twoCharToken l 124 58)
    else if ch = 35 ∧ l.pos + 1 < l.input.length ∧ l.input.getD (l.pos + 1) 0 = 58 then
      .ok (twoCharToken l 35 58)
    else readWord l

/-- `Tokenize` loop: collect tokens, discarding comments, until EOF. -/
def tokenizeLoop : Nat → Lexer → List Token → Except LexErr (List Token)
  | 0, _, _ => .error .fuel
  | n + 1, l, acc =>
    match nextToken l with
    | .error e => .error e
    | .ok (t, l1) =>
      let acc1 := if t.type = .comment then acc else acc ++ [t]
      if t.type = .eof then .ok acc1
      else tokenizeLoop n l1 acc1

/-- `Tokenize`: run the loop from the start of the input. -/
def tokenize (input : List Nat) : Except LexErr (List Token) :=
  tokenizeLoop (input.length + 2) ⟨input, 0, 1, 1⟩ []

/-- Compile-time errors, one constructor per `fmt.Errorf` site in
compiler.go (plus lexer errors and the fuel marker). -/
inductive CompErr where
  | lex (e : LexErr)
  | expectedNumberToken
  | invalidHexNumber (text : List Nat) (line : Nat)
  | invalidNumber (text : List Nat) (line : Nat)
  | infiniteLoopFirstPass
  | expectedModuleName (line : Nat)
  | expectedImportName (line : Nat)
  | expectedShorthandName (line : Nat)
  | unknownWord (text : List Nat) (line : Nat)
  | unexpectedRBracket (line : Nat)
  | unexpectedTokenType (line : Nat)
  | expectedWordName (line : Nat)
  | unexpectedEOFInDef (name : List Nat)
  | nestedDef (line : Nat)
  | unexpectedRBracketInDef (line : Nat)
  | noQuotationStarted (line : Nat)
  | unexpectedRBracketInQuot (line : Nat)
  | semicolonInQuot (line : Nat)
  | unknownWordInQuot (text : List Nat) (line : Nat)
  | invalidTokenInQuot (line : Nat)
  | unclosedQuotation (line : Nat)
  | combinatorInQuot (name : List Nat)
  | ifElseNeedsTwoQuotations (line : Nat)
  | unknownCombinator (name : List Nat) (line : Nat)
  | reservedOverflow
  | fuel
  deriving DecidableEq, Repr

/-- Go's `strconv.ParseInt(s, b, 32)` digit loop: every byte must be a
digit of the base, and the scan fails at the first byte that is not. -/
def digitsToNat (base : Nat) : List Nat → Nat → Option Nat
  | [], acc => some acc
  | b :: bs, acc =>
    let d :=
      if isDigitByte b then some (b - 48)
      else if 97 ≤ b ∧ b ≤ 102 then some (b - 87)
      else if 65 ≤ b ∧ b ≤ 70 then some (b - 55)
      else none
    match d with
    | some dv => if dv < base then digitsToNat base bs (acc * base + dv) else none
    | none => none

/-- `strconv.ParseInt(s, base, 32)`: optional sign, non-empty digit run,
result within the `int32` range. -/
def goParseInt (base : Nat) (bs : List Nat) : Option Int :=
  let (neg, digits) :=
    match bs with
    | 43 :: rest => (false, rest)
    | 45 :: rest => (true, rest)
    | rest => (false, rest)
  if digits = [] then none
  else
    match digitsToNat base digits 0 with
    | none => none
    | some n =>
      let v : Int := if neg then -(n : Int) else (n : Int)
      if v < -2147483648 ∨ v > 2147483647 then none else some v

/-- `hasPrefix`: `strings.HasPrefix` on byte lists. -/
def hasPrefixB : List Nat → List Nat → Bool
  | _, [] => true
  | [], _ :: _ => false
  | a :: as_, b :: bs => a = b ∧ hasPrefixB as_ bs

/-- `ParseNumber` from lexer.go: `0x`/`0X` prefix selects base-16 parsing of
the REMAINDER of the text; everything else is parsed as decimal.  A token
like `-0x2A` therefore reaches the decimal parser, which rejects the `x`. -/
def parseNumber (t : Token) : Except CompErr Int :=
  if t.type ≠ .number then .error .expectedNumberToken
  else if hasPrefixB t.value (strB "0x") ∨ hasPrefixB t.value (strB "0X") then
    match goParseInt 16 (t.value.drop 2) with
    | some v => .ok v
    | none => .error (.invalidHexNumber t.value t.line)
  else
    match goParseInt 10 t.value with
    | some v => .ok v
    | none => .error (.invalidNumber t.value t.line)

/-! ## Compiler (pkg/lux/compiler.go)

Go maps become association lists with overwrite-on-insert; the iteration
order of a Go map is never observed by the compiler (maps are only inserted
into and looked up), so the list representation is faithful. -/

/-- Association-list lookup standing in for a Go map read. -/
def mapLookup [DecidableEq κ] (m : List (κ × α)) (k : κ) : Option α :=
  match m.find? (fun p => decide (p.1 = k)) with
  | some p => some p.2
  | none => none

/-- Association-list insert standing in for a Go map write (overwrites an
existing binding for the key). -/
def mapInsert [DecidableEq κ] (m : List (κ × α)) (k : κ) (v : α) :
    List (κ × α) :=
  if (m.find? (fun p => decide (p.1 = k))).isSome then
    m.map (fun p => if p.1 = k then (k, v) else p)
  else m ++ [(k, v)]

/-- Replace the element at index `i` (in-place Go slice update). -/
def modifyAt : List α → Nat → (α → α) → List α
  | [], _, _ => []
  | x :: xs, 0, f => f x :: xs
  | x :: xs, n + 1, f => x :: modifyAt xs n f

/-- `strings.Contains(w, "::")`. -/
def hasColonColon : List Nat → Bool
  | 58 :: 58 :: _ => true
  | _ :: rest => hasColonColon rest
  | [] => false

/-- `strings.SplitN(w, "::", 2)`: text before the first `::` and the rest. -/
def splitColonColon : List Nat → List Nat × List Nat
  | 58 :: 58 :: rest => ([], rest)
  | b :: rest =>
    let (p, t) := splitColonColon rest
    (b :: p, t)
  | [] => ([], [])

/-- The `builtins` map from compiler.go. -/
def builtinsLookup (w : List Nat) : Option Nat :=
  if w = strB "DUP" then some OpDup
  else if w = strB "DROP" then some OpPop
  else if w = strB "SWAP" then some OpSwap
  else if w = strB "ROLL" then some OpRoll
  else if w = strB "ROT" then some OpRot
  else if w = strB "+" then some OpAdd
  else if w = strB "-" then some OpSub
  else if w = strB "*" then some OpMul
  else if w = strB "/" then some OpDiv
  else if w = strB "MOD" then some OpMod
  else if w = strB "INC" then some OpInc
  else if w = strB "DEC" then some OpDec
  else if w = strB "NEGATE" then some OpNeg
  else if w = strB "AND" then some OpAnd
  else if w = strB "OR" then some OpOr
  else if w = strB "XOR" then some OpXor
  else if w = strB "NOT" then some OpNot
  else if w = strB "LSHIFT" then some OpShl
  else if w = strB "=" then some OpEq
  else if w = strB "<" then some OpLt
  else if w = strB ">" then some OpGt
  else if w = strB "EXIT" then some OpRet
  else none

/-- The `combinators` set from compiler.go. -/
def isCombinator (w : List Nat) : Bool :=
  w = strB "?:" ∨ w = strB "?" ∨ w = strB "!:" ∨ w = strB "|:" ∨
    w = strB "#:" ∨ w = strB "CALL" ∨ w = strB "DIP" ∨ w = strB "KEEP"

/-- A dictionary entry (`Word` in compiler.go). -/
structure LuxWord where
  name : List Nat
  address : Int
  module : List Nat
  deriving DecidableEq, Repr

/-- A compile-time quotation record (`Quotation` in compiler.go). -/
structure Quotation where
  address : Int
  endAddr : Int
  code : List Nat
  tempAddr : Int
  deriving DecidableEq, Repr

/-- The compiler state (`Compiler` in compiler.go, minus the trace flag). -/
structure Compiler where
  tokens : List Token
  pos : Nat
  bytecode : List Nat
  dictionary : List (List Nat × LuxWord)
  quotations : List Quotation
  currentModule : List Nat
  imports : List (List Nat × List Nat)
  baseAddr : Int
  tempAlloc : Int
  deriving Repr

/-- The EOF token Go's `peek` fabricates past the end of the token list. -/
def eofToken : Token := ⟨.eof, [], 0, 0⟩

/-- `peek` helper method. -/
def Compiler.peek (c : Compiler) : Token :=
  if c.pos ≥ c.tokens.length then eofToken else c.tokens.getD c.pos eofToken

/-- `advance` helper method. -/
def Compiler.advance (c : Compiler) : Token × Compiler :=
  let token := c.peek
  if c.pos < c.tokens.length then (token, { c with pos := c.pos + 1 })
  else (token, c)

/-- `emit` helper method (variadic append in Go). -/
def Compiler.emit (c : Compiler) (bytes : List Nat) : Compiler :=
  { c with bytecode := c.bytecode ++ bytes }

/-- `currentOffset`: position in the bytecode buffer. -/
def Compiler.currentOffset (c : Compiler) : Nat :=
  c.bytecode.length

/-- `currentAddress`: absolute VM address of the next emitted byte
(`int32` arithmetic in Go). -/
def Compiler.currentAddress (c : Compiler) : Int :=
  toInt32 (c.baseAddr + toInt32 (c.bytecode.length : Int))

/-- `allocTemp`: monotone allocator over reserved memory. -/
def Compiler.allocTemp (c : Compiler) (size : Int) :
    Except CompErr (Int × Compiler) :=
  let addr := c.tempAlloc
  let c := { c with tempAlloc := c.tempAlloc + size }
  if c.tempAlloc > (ReservedMemorySize : Int) then .error .reservedOverflow
  else .ok (addr, c)

/-- Append bytes to the code buffer of quotation number `i`. -/
def appendQuot (c : Compiler) (i : Nat) (bytes : List Nat) : Compiler :=
  let qs := modifyAt c.quotations i (fun q => { q with code := q.code ++ bytes })
  { c with quotations := qs }

/-- `resolveWord`: exact dictionary hit, then current-module qualification,
then import-alias qualification. -/
def resolveWord (c : Compiler) (wordName : List Nat) : Option LuxWord :=
  let upperName := toUpperB wordName
  match mapLookup c.dictionary upperName with
  | some w => some w
  | none =>
    let viaModule :=
      if ¬hasColonColon upperName ∧ c.currentModule ≠ [] then
        mapLookup c.dictionary (c.currentModule ++ strB "::" ++ upperName)
      else none
    match viaModule with
    | some w => some w
    | none =>
      if hasColonColon upperName then
        match splitColonColon upperName with
        | (p, wordPart) =>
          match mapLookup c.imports p with
          | some fullModule =>
            mapLookup c.dictionary (fullModule ++ strB "::" ++ wordPart)
          | none => none
      else none

/-- Decode a byte list as UTF-8 code points, one 0xFFFD per invalid byte,
modelling Go's `for _, ch := range string`.  Only ASCII strings reach this
in the programs studied here. -/
def utf8Decode : Nat → List Nat → List Nat
  | 0, _ => []
  | _, [] => []
  | n + 1, b0 :: rest =>
    if b0 < 128 then b0 :: utf8Decode n rest
    else if 194 ≤ b0 ∧ b0 ≤ 223 then
      match rest with
      | b1 :: rest1 =>
        if 128 ≤ b1 ∧ b1 ≤ 191 then
          ((b0 - 192) * 64 + (b1 - 128)) :: utf8Decode n rest1
        else 65533 :: utf8Decode n rest
      | [] => [65533]
    else if 224 ≤ b0 ∧ b0 ≤ 239 then
      match rest with
      | b1 :: b2 :: rest2 =>
        let lo1 := if b0 = 224 then 160 else 128
        let hi1 := if b0 = 237 then 159 else 191
        if lo1 ≤ b1 ∧ b1 ≤ hi1 ∧ 128 ≤ b2 ∧ b2 ≤ 191 then
          ((b0 - 224) * 4096 + (b1 - 128) * 64 + (b2 - 128)) :: utf8Decode n rest2
        else 65533 :: utf8Decode n rest
      | _ => 65533 :: utf8Decode n rest
    else if 240 ≤ b0 ∧ b0 ≤ 244 then
      match rest with
      | b1 :: b2 :: b3 :: rest3 =>
        let lo1 := if b0 = 240 then 144 else 128
        let hi1 := if b0 = 244 then 143 else 191
        if lo1 ≤ b1 ∧ b1 ≤ hi1 ∧ 128 ≤ b2 ∧ b2 ≤ 191 ∧ 128 ≤ b3 ∧ b3 ≤ 191 then
          ((b0 - 240) * 262144 + (b1 - 128) * 4096 + (b2 - 128) * 64 + (b3 - 128)) ::
            utf8Decode n rest3
        else 65533 :: utf8Decode n rest
      | _ => 65533 :: utf8Decode n rest
    else 65533 :: utf8Decode n rest

/-- The `PUSH c; PUSH 1; OUT` triple emitted per string character. -/
def stringEmitBytes (value : List Nat) : List Nat :=
  (utf8Decode (value.length + 1) value).flatMap
    (fun ch => [OpPush] ++ encodeInt32 (ch : Int) ++ [OpPush] ++ encodeInt32 1 ++ [OpOut])

/-- `compileIfElse`: lowering of `cond [T] [F] ?:`. -/
def compileIfElse (c : Compiler) : Except CompErr Compiler :=
  if c.quotations.length < 2 then .error (.ifElseNeedsTwoQuotations c.peek.line)
  else
    let c := c.emit [OpSwap]
    let c := c.emit [OpRot]
    let elseLabel := c.bytecode.length
    let c := c.emit [OpJz]
    let c := c.emit [0, 0, 0, 0]
    let c := c.emit [OpSwap]
    let c := c.emit [OpPop]
    let c := c.emit [OpCallStack]
    let endLabel := c.bytecode.length
    let c := c.emit [OpJmp]
    let c := c.emit [0, 0, 0, 0]
    let elseBranch := c.currentAddress
    let c := c.emit [OpPop]
    let c := c.emit [OpCallStack]
    let endA := c.currentAddress
    let c := { c with bytecode := setBytes c.bytecode (elseLabel + 1) (encodeInt32 elseBranch) }
    let c := { c with bytecode := setBytes c.bytecode (endLabel + 1) (encodeInt32 endA) }
    .ok c

/-- `compileIf`: lowering of `cond [body] ?`. -/
def compileIf (c : Compiler) : Except CompErr Compiler :=
  let c := c.emit [OpSwap]
  let c := c.emit [OpJz]
  let skipLabel := c.currentOffset
  let c := c.emit [0, 0, 0, 0]
  let c := c.emit [OpCallStack]
  let c := c.emit [OpJmp]
  let endLabel := c.currentOffset
  let c := c.emit [0, 0, 0, 0]
  let skip := c.currentAddress
  let c := c.emit [OpPop]
  let endA := c.currentAddress
  let c := { c with bytecode := setBytes c.bytecode skipLabel (encodeInt32 skip) }
  let c := { c with bytecode := setBytes c.bytecode endLabel (encodeInt32 endA) }
  .ok c

/-- `compileUnless`: lowering of `cond [body] !:`. -/
def compileUnless (c : Compiler) : Except CompErr Compiler :=
  let c := c.emit [OpSwap]
  let c := c.emit [OpJnz]
  let skipLabel := c.currentOffset
  let c := c.emit [0, 0, 0, 0]
  let c := c.emit [OpCallStack]
  let c := c.emit [OpJmp]
  let endLabel := c.currentOffset
  let c := c.emit [0, 0, 0, 0]
  let skip := c.currentAddress
  let c := c.emit [OpPop]
  let endA := c.currentAddress
  let c := { c with bytecode := setBytes c.bytecode skipLabel (encodeInt32 skip) }
  let c := { c with bytecode := setBytes c.bytecode endLabel (encodeInt32 endA) }
  .ok c

/-- `compileWhile`: lowering of `[cond] [body] |:` through two reserved
memory slots. -/
def compileWhile (c : Compiler) : Except CompErr Compiler :=
  match c.allocTemp 4 with
  | .error e => .error e
  | .ok (tempCondAddr, c) =>
    match c.allocTemp 4 with
    | .error e => .error e
    | .ok (tempBodyAddr, c) =>
      let c := c.emit [OpStore]
      let c := c.emit (encodeInt32 tempBodyAddr)
      let c := c.emit [OpStore]
      let c := c.emit (encodeInt32 tempCondAddr)
      let loopStart := c.currentAddress
      let c := c.emit [OpDup]
      let c := c.emit [OpLoad]
      let c := c.emit (encodeInt32 tempCondAddr)
      let c := c.emit [OpCallStack]
      let c := c.emit [OpJz]
      let exitLabel := c.currentOffset
      let c := c.emit [0, 0, 0, 0]
      let c := c.emit [OpLoad]
      let c := c.emit (encodeInt32 tempBodyAddr)
      let c := c.emit [OpCallStack]
      let c := c.emit [OpJmp]
      let c := c.emit (encodeInt32 loopStart)
      let exit := c.currentAddress
      let c := { c with bytecode := setBytes c.bytecode exitLabel (encodeInt32 exit) }
      .ok c

/-- `compileTimes`: lowering of `[body] n #:`. -/
def compileTimes (c : Compiler) : Except CompErr Compiler :=
  match c.allocTemp 4 with
  | .error e => .error e
  | .ok (tempQuotAddr, c) =>
    match c.allocTemp 4 with
    | .error e => .error e
    | .ok (tempCountAddr, c) =>
      let loopStart := c.currentAddress
      let c := c.emit [OpDup]
      let c := c.emit [OpJz]
      let exitLabel := c.currentOffset
      let c := c.emit [0, 0, 0, 0]
      let c := c.emit [OpDec]
      let c := c.emit [OpStore]
      let c := c.emit (encodeInt32 tempCountAddr)
      let c := c.emit [OpStore]
      let c := c.emit (encodeInt32 tempQuotAddr)
      let c := c.emit [OpLoad]
      let c := c.emit (encodeInt32 tempQuotAddr)
      let c := c.emit [OpCallStack]
      let c := c.emit [OpLoad]
      let c := c.emit (encodeInt32 tempQuotAddr)
      let c := c.emit [OpLoad]
      let c := c.emit (encodeInt32 tempCountAddr)
      let c := c.emit [OpJmp]
      let c := c.emit (encodeInt32 loopStart)
      let exit := c.currentAddress
      let c := c.emit [OpPop]
      let c := c.emit [OpPop]
      let c := { c with bytecode := setBytes c.bytecode exitLabel (encodeInt32 exit) }
      .ok c

/-- `compileDip`: a bare CALLSTACK. -/
def compileDip (c : Compiler) : Except CompErr Compiler :=
  .ok (c.emit [OpCallStack])

/-- `compileKeep`: `SWAP; DUP; ROT; CALLSTACK`. -/
def compileKeep (c : Compiler) : Except CompErr Compiler :=
  let c := c.emit [OpSwap]
  let c := c.emit [OpDup]
  let c := c.emit [OpRot]
  let c := c.emit [OpCallStack]
  .ok c

/-- `compileCombinator`: dispatch on the (upper-cased) combinator name. -/
def compileCombinator (c : Compiler) (name : List Nat) (line : Nat) :
    Except CompErr Compiler :=
  let upper := toUpperB name
  if upper = strB "CALL" then .ok (c.emit [OpCallStack])
  else if upper = strB "?:" then compileIfElse c
  else if upper = strB "?" then compileIf c
  else if upper = strB "!:" then compileUnless c
  else if upper = strB "|:" then compileWhile c
  else if upper = strB "#:" then compileTimes c
  else if upper = strB "DIP" then compileDip c
  else if upper = strB "KEEP" then compileKeep c
  else .error (.unknownCombinator name line)

/-- `compileToken`: one token of main-body (or definition-body) code.  Note
the resolution order: user words are tried BEFORE combinators and builtins
here, unlike inside quotations. -/
def compileToken (c : Compiler) (token : Token) : Except CompErr Compiler :=
  match token.type with
  | .number =>
    match parseNumber token with
    | .error e => .error e
    | .ok value =>
      let c := c.emit [OpPush]
      .ok (c.emit (encodeInt32 value))
  | .string => .ok (c.emit (stringEmitBytes token.value))
  | .word =>
    let wordName := toUpperB token.value
    if wordName = strB "." then
      let c := c.emit [OpPush]
      let c := c.emit (encodeInt32 0)
      .ok (c.emit [OpOut])
    else if wordName = strB "EMIT" then
      let c := c.emit [OpPush]
      let c := c.emit (encodeInt32 1)
      .ok (c.emit [OpOut])
    else
      match resolveWord c wordName with
      | some w =>
        let c := c.emit [OpCall]
        .ok (c.emit (encodeInt32 w.address))
      | none =>
        if isCombinator wordName then compileCombinator c wordName token.line
        else
          match builtinsLookup wordName with
          | some opcode => .ok (c.emit [opcode])
          | none => .error (.unknownWord token.value token.line)
  | .lbracket =>
    let tempAddr := toInt32 (c.currentAddress + 5)
    let c := { c with quotations := c.quotations ++ [Quotation.mk 0 0 [] tempAddr] }
    let c := c.emit [OpPush]
    .ok (c.emit (encodeInt32 tempAddr))
  | .rbracket => .error (.unexpectedRBracket token.line)
  | _ => .error (.unexpectedTokenType token.line)

/-- `compileQuotationCombinator`: the only combinators allowed inside a
quotation body. -/
def compileQuotationCombinator (c : Compiler) (name : List Nat) (quotIndex : Nat) :
    Except CompErr Compiler :=
  let upper := toUpperB name
  if upper = strB "DIP" then .ok (appendQuot c quotIndex [OpCallStack])
  else if upper = strB "KEEP" then
    .ok (appendQuot c quotIndex [OpSwap, OpDup, OpRot, OpCallStack])
  else if upper = strB "CALL" then .ok (appendQuot c quotIndex [OpCallStack])
  else .error (.combinatorInQuot name)

/-- One ordinary (non-bracket) token compiled into the code buffer of
quotation `quotIndex`; returns the advanced compiler.  Shared between the
top-level and in-definition quotation loops, whose Go bodies are textually
identical for these cases. -/
def compileQuotationBodyToken (c : Compiler) (token : Token) (quotIndex : Nat) :
    Except CompErr Compiler :=
  match token.type with
  | .number =>
    match parseNumber token with
    | .error e => .error e
    | .ok num =>
      let c := appendQuot c quotIndex ([OpPush] ++ encodeInt32 num)
      .ok (c.advance).2
  | .word =>
    let upperVal := toUpperB token.value
    if upperVal = strB "." then
      let c := appendQuot c quotIndex ([OpPush] ++ encodeInt32 0 ++ [OpOut])
      .ok (c.advance).2
    else if upperVal = strB "EMIT" then
      let c := appendQuot c quotIndex ([OpPush] ++ encodeInt32 1 ++ [OpOut])
      .ok (c.advance).2
    else
      match builtinsLookup upperVal with
      | some opcode => .ok ((appendQuot c quotIndex [opcode]).advance).2
      | none =>
        if isCombinator upperVal then
          let c := (c.advance).2
          compileQuotationCombinator c upperVal quotIndex
        else
          match resolveWord c upperVal with
          | some w =>
            let c := appendQuot c quotIndex ([OpCall] ++ encodeInt32 w.address)
            .ok (c.advance).2
          | none => .error (.unknownWordInQuot token.value token.line)
  | .string =>
    let c := appendQuot c quotIndex (stringEmitBytes token.value)
    .ok (c.advance).2
  | _ => .error (.invalidTokenInQuot token.line)

/-- `compileQuotation` (top-level quotations), fused with its scanning loop
so that the recursion is structural in the fuel (entering mode, `loop =
false`, computes the quotation index and performs the closing-bracket
post-processing; loop mode iterates the token scan).  Note that a nested `[`
does NOT change `depth` in this variant (the recursive call consumes the
matching `]`). -/
def compileQuotationAux : Nat → Bool → Compiler → Nat → Int →
    Except CompErr Compiler
  | 0, _, _, _, _ => .error .fuel
  | n + 1, false, c, _, _ =>
    if c.quotations.length = 0 then .error (.noQuotationStarted c.peek.line)
    else
      let quotIndex := c.quotations.length - 1
      match compileQuotationAux n true c quotIndex 1 with
      | .error e => .error e
      | .ok c =>
        if c.peek.type ≠ .rbracket then
          .error (.unclosedQuotation (c.tokens.getD (c.pos - 1) eofToken).line)
        else
          let c := appendQuot c quotIndex [OpRet]
          .ok (c.advance).2
  | n + 1, true, c, quotIndex, depth =>
    if c.pos < c.tokens.length ∧ depth > 0 ∧ c.peek.type ≠ .eof then
      let token := c.peek
      if token.type = .lbracket then
        let tempAddr : Int := 4096 + (c.quotations.length : Int) * 256
        let c := appendQuot c quotIndex ([OpPush] ++ encodeInt32 tempAddr)
        let c := { c with quotations := c.quotations ++ [Quotation.mk 0 0 [] tempAddr] }
        let c := (c.advance).2
        match compileQuotationAux n false c 0 0 with
        | .error e => .error e
        | .ok c => compileQuotationAux n true c quotIndex depth
      else if token.type = .rbracket then
        if depth - 1 = 0 then .ok c
        else .error (.unexpectedRBracketInQuot token.line)
      else
        match compileQuotationBodyToken c token quotIndex with
        | .error e => .error e
        | .ok c => compileQuotationAux n true c quotIndex depth
    else .ok c

/-- `compileQuotation`: compile tokens into the LAST quotation's code buffer
until the matching `]`, appending a final RET. -/
def compileQuotation (fuel : Nat) (c : Compiler) : Except CompErr Compiler :=
  compileQuotationAux (fuel + 1) false c 0 0

/-- `compileQuotationInDefinition`, fused with its scanning loop in the same
way.  Unlike the top-level variant, a nested `[` DOES increment `depth` here
even though the recursive call consumes the matching `]`, so a doubly-nested
quotation inside a word definition makes the enclosing `]` report an error
(a quirk of the source preserved by this embedding); this variant also
rejects `;` inside a quotation explicitly. -/
def compileQuotationInDefAux : Nat → Bool → Compiler → Nat → Int →
    Except CompErr Compiler
  | 0, _, _, _, _ => .error .fuel
  | n + 1, false, c, _, _ =>
    if c.quotations.length = 0 then .error (.noQuotationStarted c.peek.line)
    else
      let quotIndex := c.quotations.length - 1
      match compileQuotationInDefAux n true c quotIndex 1 with
      | .error e => .error e
      | .ok c =>
        if c.peek.type ≠ .rbracket then
          .error (.unclosedQuotation (c.tokens.getD (c.pos - 1) eofToken).line)
        else
          let c := appendQuot c quotIndex [OpRet]
          .ok (c.advance).2
  | n + 1, true, c, quotIndex, depth =>
    if c.pos < c.tokens.length ∧ depth > 0 ∧ c.peek.type ≠ .eof then
      let token := c.peek
      if token.type = .lbracket then
        let depth := depth + 1
        let tempAddr : Int := 4096 + (c.quotations.length : Int) * 256
        let c := appendQuot c quotIndex ([OpPush] ++ encodeInt32 tempAddr)
        let c := { c with quotations := c.quotations ++ [Quotation.mk 0 0 [] tempAddr] }
        let c := (c.advance).2
        match compileQuotationInDefAux n false c 0 0 with
        | .error e => .error e
        | .ok c => compileQuotationInDefAux n true c quotIndex depth
      else if token.type = .rbracket then
        if depth - 1 = 0 then .ok c
        else .error (.unexpectedRBracketInQuot token.line)
      else if token.type = .semicolon then .error (.semicolonInQuot token.line)
      else
        match compileQuotationBodyToken c token quotIndex with
        | .error e => .error e
        | .ok c => compileQuotationInDefAux n true c quotIndex depth
    else .ok c

/-- `compileQuotationInDefinition`: quotation compiler used inside word
definitions. -/
def compileQuotationInDefinition (fuel : Nat) (c : Compiler) :
    Except CompErr Compiler :=
  compileQuotationInDefAux (fuel + 1) false c 0 0

/-- Body loop of `compileWordDefinition`: compile tokens until the `;`. -/
def defBodyLoop : Nat → Compiler → List Nat → Except CompErr Compiler
  | 0, _, _ => .error .fuel
  | n + 1, c, wordName =>
    let token := c.peek
    if token.type = .eof then .error (.unexpectedEOFInDef wordName)
    else if token.type = .semicolon then .ok (c.advance).2
    else if token.type = .atSign then .error (.nestedDef token.line)
    else if token.type = .lbracket then
      let tempAddr := toInt32 (c.currentAddress + 5)
      let c := { c with quotations := c.quotations ++ [Quotation.mk 0 0 [] tempAddr] }
      let c := c.emit [OpPush]
      let c := c.emit (encodeInt32 tempAddr)
      let c := (c.advance).2
      match compileQuotationInDefinition n c with
      | .error e => .error e
      | .ok c => defBodyLoop n c wordName
    else if token.type = .rbracket then .error (.unexpectedRBracketInDef token.line)
    else
      match compileToken c token with
      | .error e => .error e
      | .ok c => defBodyLoop n (c.advance).2 wordName

/-- `compileWordDefinition`: consume `@ NAME body ;`, emit the body followed
by RET, and insert the dictionary entry (AFTER the body, so direct recursion
cannot resolve). -/
def compileWordDefinition (c : Compiler) : Except CompErr Compiler :=
  let (_, c) := c.advance
  let (nameToken, c) := c.advance
  if nameToken.type ≠ .word then .error (.expectedWordName nameToken.line)
  else
    let baseName := toUpperB nameToken.value
    let wordName :=
      if c.currentModule ≠ [] ∧ ¬hasColonColon baseName then
        c.currentModule ++ strB "::" ++ baseName
      else baseName
    let wordAddress := c.currentAddress
    match defBodyLoop (c.tokens.length * 2 + 2) c wordName with
    | .error e => .error e
    | .ok c =>
      let c := c.emit [OpRet]
      let d := mapInsert c.dictionary wordName ⟨wordName, wordAddress, c.currentModule⟩
      .ok { c with dictionary := d }

/-- `handleModuleDirective`. -/
def handleModuleDirective (c : Compiler) : Except CompErr Compiler :=
  let (_, c) := c.advance
  let nameToken := c.peek
  if nameToken.type ≠ .word then .error (.expectedModuleName nameToken.line)
  else
    let c := { c with currentModule := toUpperB nameToken.value }
    .ok (c.advance).2

/-- `handleImportDirective`: note that an import WITHOUT `AS` registers
nothing in the alias map. -/
def handleImportDirective (c : Compiler) : Except CompErr Compiler :=
  let (_, c) := c.advance
  let nameToken := c.peek
  if nameToken.type ≠ .word then .error (.expectedImportName nameToken.line)
  else
    let moduleName := toUpperB nameToken.value
    let c := (c.advance).2
    if c.peek.type = .word ∧ toUpperB c.peek.value = strB "AS" then
      let c := (c.advance).2
      let shorthandToken := c.peek
      if shorthandToken.type ≠ .word then
        .error (.expectedShorthandName shorthandToken.line)
      else
        let shorthand := toUpperB shorthandToken.value
        let c := { c with imports := mapInsert c.imports shorthand moduleName }
        .ok (c.advance).2
    else .ok c

/-- First pass: directives and word definitions; everything else skipped.
The fuel equals the Go loop's own `maxIterations` guard, so exhausting it
reproduces the Go "infinite loop detected" error exactly. -/
def firstPassLoop : Nat → Compiler → Except CompErr Compiler
  | 0, c =>
    if c.pos < c.tokens.length ∧ c.peek.type ≠ .eof then .error .infiniteLoopFirstPass
    else .ok c
  | r + 1, c =>
    if c.pos < c.tokens.length ∧ c.peek.type ≠ .eof then
      let token := c.peek
      if token.type = .word ∧ toUpperB token.value = strB "MODULE" then
        match handleModuleDirective c with
        | .error e => .error e
        | .ok c => firstPassLoop r c
      else if token.type = .word ∧ toUpperB token.value = strB "IMPORT" then
        match handleImportDirective c with
        | .error e => .error e
        | .ok c => firstPassLoop r c
      else if token.type = .atSign then
        match compileWordDefinition c with
        | .error e => .error e
        | .ok c => firstPassLoop r c
      else firstPassLoop r (c.advance).2
    else .ok c

/-- `skipWordDefinition` loop (second pass): scan past a definition,
tracking bracket depth. -/
def skipDefLoop : Nat → Compiler → Int → Compiler
  | 0, c, _ => c
  | n + 1, c, depth =>
    if c.peek.type ≠ .eof then
      let token := c.peek
      if token.type = .lbracket then skipDefLoop n (c.advance).2 (depth + 1)
      else if token.type = .rbracket then skipDefLoop n (c.advance).2 (depth - 1)
      else if token.type = .semicolon ∧ depth = 0 then (c.advance).2
      else skipDefLoop n (c.advance).2 depth
    else c

/-- `skipWordDefinition`. -/
def skipWordDefinition (c : Compiler) : Compiler :=
  let c := (c.advance).2
  let c := (c.advance).2
  skipDefLoop (c.tokens.length + 1) c 0

/-- Second pass: compile the main body, skipping directives and definition
spans, recursing into quotations at `[`. -/
def secondPassLoop : Nat → Compiler → Except CompErr Compiler
  | 0, _ => .error .fuel
  | n + 1, c =>
    if c.pos < c.tokens.length ∧ c.peek.type ≠ .eof then
      let token := c.peek
      if token.type = .word ∧ toUpperB token.value = strB "MODULE" then
        secondPassLoop n ((c.advance).2.advance).2
      else if token.type = .word ∧ toUpperB token.value = strB "IMPORT" then
        let c := ((c.advance).2.advance).2
        let c :=
          if c.peek.type = .word ∧ toUpperB c.peek.value = strB "AS" then
            ((c.advance).2.advance).2
          else c
        secondPassLoop n c
      else if token.type = .atSign then
        secondPassLoop n (skipWordDefinition c)
      else if token.type = .lbracket then
        match compileToken c token with
        | .error e => .error e
        | .ok c =>
          let c := (c.advance).2
          match compileQuotation n c with
          | .error e => .error e
          | .ok c => secondPassLoop n c
      else
        match compileToken c token with
        | .error e => .error e
        | .ok c => secondPassLoop n (c.advance).2
    else .ok c

/-- Quotation placement: assign each quotation its real address in creation
order, append its code, and record `tempAddr → address` in the map. -/
def placeQuotationsLoop : Nat → Nat → Compiler → List (Int × Int) →
    Compiler × List (Int × Int)
  | 0, _, c, m => (c, m)
  | n + 1, i, c, m =>
    let q := c.quotations.getD i ⟨0, 0, [], 0⟩
    let addr := c.currentAddress
    let m := mapInsert m q.tempAddr addr
    let qs1 := modifyAt c.quotations i (fun qq => { qq with address := addr })
    let c := { c with quotations := qs1 }
    let c := { c with bytecode := c.bytecode ++ q.code }
    let qs2 := modifyAt c.quotations i (fun qq => { qq with endAddr := c.currentAddress })
    let c := { c with quotations := qs2 }
    placeQuotationsLoop n (i + 1) c m

/-- Main-code patch scan: every byte position `j` below `mainEndPos` whose
byte equals PUSH and whose following 4 bytes decode to a mapped placeholder
is overwritten with the real address — whatever instruction the position
actually belongs to. -/
def patchMainLoop : Nat → Nat → List Nat → Nat → List (Int × Int) → List Nat
  | 0, _, bc, _, _ => bc
  | n + 1, j, bc, mainEndPos, m =>
    let bc :=
      if bc.getD j 0 = OpPush ∧ j + 4 < mainEndPos then
        let addr := decodeI32 (readU32L bc (j + 1))
        match mapLookup m addr with
        | some realAddr => setBytes bc (j + 1) (encodeInt32 realAddr)
        | none => bc
      else bc
    patchMainLoop n (j + 1) bc mainEndPos m

/-- Patch scan over one placed quotation region. -/
def patchQuotRegionLoop : Nat → Nat → Nat → Nat → List Nat → List (Int × Int) →
    List Nat
  | 0, _, _, _, bc, _ => bc
  | n + 1, j, start, len, bc, m =>
    let bc :=
      if bc.getD (start + j) 0 = OpPush ∧ j + 4 < len then
        let addr := decodeI32 (readU32L bc (start + j + 1))
        match mapLookup m addr with
        | some realAddr => setBytes bc (start + j + 1) (encodeInt32 realAddr)
        | none => bc
      else bc
    patchQuotRegionLoop n (j + 1) start len bc m

/-- Patch scan over all placed quotation regions in placement order. -/
def patchQuotationsLoop : Nat → Nat → Nat → Compiler → List (Int × Int) → List Nat
  | 0, _, _, c, _ => c.bytecode
  | n + 1, i, posn, c, m =>
    let q := c.quotations.getD i ⟨0, 0, [], 0⟩
    let bc := patchQuotRegionLoop q.code.length 0 posn q.code.length c.bytecode m
    patchQuotationsLoop n (i + 1) (posn + q.code.length) { c with bytecode := bc } m

/-- The body of `compile`: initial JMP, first pass, JMP patch, second pass,
skip-quotations JMP, quotation placement, the two patch scans, HALT, and
the final JMP patch. -/
def compileRun (c : Compiler) : Except CompErr (List Nat) :=
  let jmpAddr := c.bytecode.length
  let c := c.emit [OpJmp]
  let c := c.emit [0, 0, 0, 0]
  let startPos := c.pos
  match firstPassLoop (c.tokens.length * 2) c with
  | .error e => .error e
  | .ok c =>
    let mainStart := c.currentAddress
    let c := { c with bytecode := setBytes c.bytecode (jmpAddr + 1) (encodeInt32 mainStart) }
    let c := { c with pos := startPos }
    match secondPassLoop (c.tokens.length * 2 + 4) c with
    | .error e => .error e
    | .ok c =>
      let skipQuotationsLabel := c.bytecode.length
      let c := c.emit [OpJmp]
      let c := c.emit [0, 0, 0, 0]
      let mainEndPos := c.bytecode.length
      match placeQuotationsLoop c.quotations.length 0 c [] with
      | (c, addrMap) =>
        let c := { c with bytecode := patchMainLoop mainEndPos 0 c.bytecode mainEndPos addrMap }
        let c := { c with bytecode := patchQuotationsLoop c.quotations.length 0 mainEndPos c addrMap }
        let haltAddr := c.currentAddress
        let c := c.emit [OpHalt]
        let c := { c with bytecode := setBytes c.bytecode (skipQuotationsLabel + 1) (encodeInt32 haltAddr) }
        .ok c.bytecode

/-- `Compile`: tokenize and run the compiler with the repository's initial
state (`baseAddr` 4096). -/
def compile (source : List Nat) : Except CompErr (List Nat) :=
  match tokenize source with
  | .error e => .error (.lex e)
  | .ok tokens =>
    compileRun
      { tokens := tokens
        pos := 0
        bytecode := []
        dictionary := []
        quotations := []
        currentModule := []
        imports := []
        baseAddr := 4096
        tempAlloc := 0 }

/-! ## REPL evaluator (cmd/luxrepl/main.go) -/

/-- Persistent REPL state (struct `REPL`, minus the scanner): the
accumulated definition history, the saved data stack in Go's bottom-to-top
slice order (as `machine.Stack()` returns it), and the recorded word
names. -/
structure ReplState where
  history : List Nat
  stack : List Int
  definitions : List (List Nat)
  deriving DecidableEq, Repr

/-- What one `evaluate` call did, standing in for the lines it prints. -/
inductive EvalResult where
  | defined (name : List Nat)
  | definedNoName
  | defNoSemi
  | compileError (e : CompErr)
  | runtimeError (e : VMErr)
  | ok
  deriving DecidableEq, Repr

/-- Whether the evaluation ended in one of the two error domains the REPL
catches (a compile error or a runtime trap). -/
def EvalResult.isErr : EvalResult → Bool
  | .compileError _ => true
  | .runtimeError _ => true
  | _ => false

/-- `strings.Fields` on bytes: whitespace-separated maximal runs. -/
def fieldsAux : List Nat → List Nat → List (List Nat)
  | [], cur => if cur = [] then [] else [cur]
  | b :: rest, cur =>
    if isSpaceByte b then
      if cur = [] then fieldsAux rest []
      else cur :: fieldsAux rest []
    else fieldsAux rest (cur ++ [b])

/-- `strings.Fields`. -/
def fieldsBytes (bs : List Nat) : List (List Nat) :=
  fieldsAux bs []

/-- Fuel for the REPL's `machine.Run()` call (the Go loop is unbounded; no
claim about the REPL exercises a long-running program). -/
def replRunFuel : Nat := 1000000

/-- `evaluate`: a leading `@` line with a `;` is recorded verbatim into the
history (and its word name into the definition list) WITHOUT compiling;
any other line is compiled together with the history and pushes restoring
the saved stack, and the saved stack is replaced only when the program
compiled and ran without error. -/
def evaluate (r : ReplState) (line : List Nat) : ReplState × EvalResult :=
  if line.head? = some 64 then
    if line.contains 59 then
      let r1 : ReplState := { r with history := r.history ++ line ++ [10] }
      match fieldsBytes (line.drop 1) with
      | wordName :: _ =>
        ({ r1 with definitions := r1.definitions ++ [wordName] }, .defined wordName)
      | [] => (r1, .definedNoName)
    else (r, .defNoSemi)
  else
    let source := r.history ++ (r.stack.flatMap (fun v => decimalBytes v ++ [32])) ++ line
    match compile source with
    | .error e => (r, .compileError e)
    | .ok bytecode =>
      match runFuel replRunFuel (newVM bytecode) with
      | (_, some e) => (r, .runtimeError e)
      | (machine, none) => ({ r with stack := machine.stack.reverse }, .ok)

end Nux

namespace Nux

set_option maxRecDepth 100000

/-! ## Claims -/

/-- Concrete machine executing DIV on stack `[0, 7]` (top first). -/
def c9DivState : VMState :=
  { stack := [0, 7], returnStack := [], memory := fun _ => OpDiv, memLen := 1
    pc := 0, running := true, reservedMemorySize := 0, userMemoryStart := 0
    output := [] }

/-- Concrete machine trapping on DIV-by-zero: used to show the `running`
flag survives a trap. -/
def c3DivState : VMState :=
  { stack := [0, 1], returnStack := [], memory := fun _ => OpDiv, memLen := 1
    pc := 0, running := true, reservedMemorySize := 0, userMemoryStart := 0
    output := [] }

/-- Machine about to execute CALLSTACK (target 4097) with return stack
`rs`. -/
def c1CallstackState (rs : List Int) : VMState :=
  { stack := [4097], returnStack := rs
    memory := fun i => if i = 4096 then OpCallStack else OpHalt
    memLen := 4098, pc := 4096, running := true
    reservedMemorySize := 4096, userMemoryStart := 4096, output := [] }

/-- Machine about to execute CALL (target 4101) with return stack `rs`. -/
def c1CallState (rs : List Int) : VMState :=
  { stack := [], returnStack := rs
    memory := fun i =>
      if i = 4096 then OpCall else if i = 4099 then 16 else
      if i = 4100 then 5 else if i = 4101 then OpHalt else 0
    memLen := 4102, pc := 4096, running := true
    reservedMemorySize := 4096, userMemoryStart := 4096, output := [] }

/-- Machine about to execute PUSH 42 with data stack `st`. -/
def c2PushState (st : List Int) : VMState :=
  { stack := st, returnStack := []
    memory := fun i => if i = 4096 then OpPush else if i = 4100 then 42 else 0
    memLen := 4102, pc := 4096, running := true
    reservedMemorySize := 4096, userMemoryStart := 4096, output := [] }

/-- The spec's reading of SHL, modelled from its words: shift `a` left by
`b mod 32` where the count is the mathematical remainder in `0..31`. -/
def specShlResult (a b : Int) : Int :=
  toInt32 (a * 2 ^ (b.emod 32).toNat)

/-- Machine executing SHL with `b = -1` on top and `a = 1` beneath. -/
def c7ShlState : VMState :=
  { stack := [-1, 1], returnStack := [], memory := fun _ => OpShl, memLen := 1
    pc := 0, running := true, reservedMemorySize := 0, userMemoryStart := 0
    output := [] }

/-- Machine executing SHL with `b = 3` on top and `a = 5` beneath, used to
witness the amended C7. -/
def c7WitnessState : VMState :=
  { stack := [3, 5], returnStack := [], memory := fun _ => OpShl, memLen := 1
    pc := 0, running := true, reservedMemorySize := 0, userMemoryStart := 0
    output := [] }

/-- The spec's reading of OUT with format 1, modelled from its words: write
the LOW BYTE of the value as a single character. -/
def specOutCharBytes (v : Int) : List Nat :=
  [(v.emod 256).toNat]

/-- Machine executing OUT with format 1 and value 321 (whose low byte is
65, the letter A). -/
def c6OutState : VMState :=
  { stack := [1, 321], returnStack := [], memory := fun _ => OpOut, memLen := 1
    pc := 0, running := true, reservedMemorySize := 0, userMemoryStart := 0
    output := [] }

/-- Machine executing OUT with format 0 and value 5, used to witness the
amended C6. -/
def c6WitnessState : VMState :=
  { stack := [0, 5], returnStack := [], memory := fun _ => OpOut, memLen := 1
    pc := 0, running := true, reservedMemorySize := 0, userMemoryStart := 0
    output := [] }

/-- The C5 source program `5 [ 0 > ] [ DUP 1 - ] |:` as bytes. -/
def luxWhileSource : List Nat := strB "5 [ 0 > ] [ DUP 1 - ] |:"

/-- The bytecode image the compiler produces for `luxWhileSource`. -/
def luxWhileImage : List Nat := (compile luxWhileSource).toOption.getD []

/-- The C4 source program `4111 [ ]` as bytes: the literal 4111 equals the
placeholder address the compiler assigns to the quotation that follows it
(the current address 4096 + 10 plus 5). -/
def c4Source : List Nat := strB "4111 [ ]"

/-- The 22-byte image produced for `c4Source`:
`JMP 4101; PUSH 4116; PUSH 4116; JMP 4117; RET; HALT`.
The first PUSH came from the source literal `4111`; the second is the
quotation-address push whose placeholder was also 4111. -/
def c4Image : List Nat :=
  [23, 0, 0, 16, 5, 0, 0, 0, 16, 20, 0, 0, 0, 16, 20, 23, 0, 0, 16, 21, 27, 31]

/-- The C4 placeholder–placeholder collision source: `1` repeated 49 times,
then `DUP [ [ ] ]`. The 49 pushes and the DUP pad the main section so the
top-level quotation's PUSH sits at buffer offset 251, making its placeholder
4096 + 251 + 5 = 4352 — exactly the nested quotation's placeholder
0x1000 + 1*0x100 = 4352. -/
def c4CollideSource : List Nat :=
  List.join (List.replicate 49 [49, 32]) ++ strB "DUP [ [ ] ]"

/-- The 269-byte image the compiler produces for `c4CollideSource`: the
header JMP, 49 pushes of 1, DUP, the quotation push (operand 4363 after
patching), the skip JMP to HALT at 4364, the parent quotation body
(PUSH 4363; RET) at address 4357, the nested body (RET) at 4363, and HALT. -/
def c4CollideImage : List Nat :=
  [23, 0, 0, 16, 5] ++ List.join (List.replicate 49 [0, 0, 0, 0, 1]) ++
    [2, 0, 0, 0, 17, 11, 23, 0, 0, 17, 12, 0, 0, 0, 17, 11, 27, 27, 31]

/-- The token list the lexer produces for `c4CollideSource`: 49 number
tokens `1` at the odd columns, `DUP`, two `[`, two `]`, and EOF. -/
def c4Toks : List Token :=
  (List.range 49).map (fun k => ⟨.number, [49], 1, 2 * k + 1⟩) ++
    [⟨.word, [68, 85, 80], 1, 99⟩, ⟨.lbracket, [91], 1, 103⟩,
      ⟨.lbracket, [91], 1, 105⟩, ⟨.rbracket, [93], 1, 107⟩,
      ⟨.rbracket, [93], 1, 109⟩, ⟨.eof, [], 1, 110⟩]

/-- The initial compiler state `compile` builds on `c4Toks`. -/
def c4C0 : Compiler := ⟨c4Toks, 0, [], [], [], [], [], 4096, 0⟩

/-- The compiler state after the header JMP emits and the first pass over
`c4Toks` (no definitions, so only the position moved, to the EOF token). -/
def c4AfterFirst : Compiler := ⟨c4Toks, 54, [23, 0, 0, 0, 0], [], [], [], [], 4096, 0⟩

/-- The compiler state entering the second pass: the header JMP operand is
patched to the main start 4101 and the position is rewound. -/
def c4BeforeSecond : Compiler := ⟨c4Toks, 0, [23, 0, 0, 16, 5], [], [], [], [], 4096, 0⟩

/-- The second-pass state after the first 17 number tokens. -/
def c4StepA : Compiler :=
  ⟨c4Toks, 17, [23, 0, 0, 16, 5] ++ List.join (List.replicate 17 [0, 0, 0, 0, 1]),
    [], [], [], [], 4096, 0⟩

/-- The second-pass state after 34 number tokens. -/
def c4StepB : Compiler :=
  ⟨c4Toks, 34, [23, 0, 0, 16, 5] ++ List.join (List.replicate 34 [0, 0, 0, 0, 1]),
    [], [], [], [], 4096, 0⟩

/-- The second-pass state after all 49 number tokens and DUP, one token
before the top-level `[` whose placeholder will be 4096 + 251 + 5 = 4352. -/
def c4StepM : Compiler :=
  ⟨c4Toks, 50, [23, 0, 0, 16, 5] ++ List.join (List.replicate 49 [0, 0, 0, 0, 1]) ++ [2],
    [], [], [], [], 4096, 0⟩

/-- The compiler state after the whole second pass: the quotation push
holds the unpatched placeholder 4352, and the two quotation records — the
parent (code `PUSH 4352; RET`) and the nested one (code `RET`) — carry the
SAME placeholder 4352. -/
def c4AfterSecond : Compiler :=
  ⟨c4Toks, 54,
    [23, 0, 0, 16, 5] ++ List.join (List.replicate 49 [0, 0, 0, 0, 1]) ++
      [2, 0, 0, 0, 17, 0],
    [], [Quotation.mk 0 0 [0, 0, 0, 17, 0, 27] 4352, Quotation.mk 0 0 [27] 4352],
    [], [], 4096, 0⟩

/-- The 261-byte main section of the `c4CollideSource` image right before
quotation placement: header, pushes, DUP, the quotation push still holding
its placeholder 4352, and the skip-quotations JMP with a zero operand. -/
def c4MainBC : List Nat :=
  [23, 0, 0, 16, 5] ++ List.join (List.replicate 49 [0, 0, 0, 0, 1]) ++
    [2, 0, 0, 0, 17, 0, 23, 0, 0, 0, 0]

/-- The bytecode after quotation placement: the parent body
(`PUSH 4352; RET`) and the nested body (`RET`) appended to `c4MainBC`. -/
def c4BC0 : List Nat := c4MainBC ++ [0, 0, 0, 17, 0, 27, 27]

/-- The bytecode after the main-section patch scan: the quotation push's
operand (offsets 252–255) rewritten from the shared placeholder 4352 to
4363 — the NESTED quotation's address, not the parent's 4357. -/
def c4BCP : List Nat :=
  [23, 0, 0, 16, 5] ++ List.join (List.replicate 49 [0, 0, 0, 0, 1]) ++
    [2, 0, 0, 0, 17, 11, 23, 0, 0, 0, 0, 0, 0, 0, 17, 0, 27, 27]

/-- The placement-built patch map for `c4CollideSource`: both quotations
share placeholder 4352, so the nested quotation's entry overwrote the
parent's and only 4352 ↦ 4363 survives. -/
def c4MP : List (Int × Int) := [(4352, 4363)]

/-- The compiler state entering quotation placement (after the
skip-quotations JMP emits). -/
def c4PlaceIn : Compiler :=
  ⟨c4Toks, 54, c4MainBC, [],
    [Quotation.mk 0 0 [0, 0, 0, 17, 0, 27] 4352, Quotation.mk 0 0 [27] 4352],
    [], [], 4096, 0⟩

/-- The compiler state after quotation placement: the parent quotation is
placed at 4357–4363, the nested one at 4363–4364. -/
def c4Placed : Compiler :=
  ⟨c4Toks, 54, c4BC0, [],
    [Quotation.mk 4357 4363 [0, 0, 0, 17, 0, 27] 4352, Quotation.mk 4363 4364 [27] 4352],
    [], [], 4096, 0⟩

/-- `c4Placed` after the main-section patch scan. -/
def c4PatchedC : Compiler :=
  ⟨c4Toks, 54, c4BCP, [],
    [Quotation.mk 4357 4363 [0, 0, 0, 17, 0, 27] 4352, Quotation.mk 4363 4364 [27] 4352],
    [], [], 4096, 0⟩

/-- The tail of `compileRun` after the second pass (compiler.go lines
225–298): skip-quotations JMP, quotation placement, the two patch scans,
HALT, and the final JMP patch. Factored out verbatim so the compilation of
`c4CollideSource` can be staged without re-evaluating the earlier passes. -/
def compileFinish (c : Compiler) : Except CompErr (List Nat) :=
  let skipQuotationsLabel := c.bytecode.length
  let c := c.emit [OpJmp]
  let c := c.emit [0, 0, 0, 0]
  let mainEndPos := c.bytecode.length
  match placeQuotationsLoop c.quotations.length 0 c [] with
  | (c, addrMap) =>
    let c := { c with bytecode := patchMainLoop mainEndPos 0 c.bytecode mainEndPos addrMap }
    let c := { c with bytecode := patchQuotationsLoop c.quotations.length 0 mainEndPos c addrMap }
    let haltAddr := c.currentAddress
    let c := c.emit [OpHalt]
    let c := { c with bytecode := setBytes c.bytecode (skipQuotationsLabel + 1) (encodeInt32 haltAddr) }
    .ok c.bytecode

/-- The tail of `compileFinish` after the main-section patch scan:
quotation-region patch scan, HALT, and the final skip-JMP patch. -/
def compileFinish2 (skipLbl mainEndPos : Nat) (c : Compiler)
    (addrMap : List (Int × Int)) : Except CompErr (List Nat) :=
  let c := { c with bytecode := patchQuotationsLoop c.quotations.length 0 mainEndPos c addrMap }
  let haltAddr := c.currentAddress
  let c := c.emit [OpHalt]
  let c := { c with bytecode := setBytes c.bytecode (skipLbl + 1) (encodeInt32 haltAddr) }
  .ok c.bytecode

/-- A restricted second-pass stepper used to stage the evaluation of
`secondPassLoop` on long programs: its body is `secondPassLoop`'s body
except that exhausted fuel returns the state unchanged and a `[` token
stops with an error (so a successful run crossed only plain tokens).
`secondPassSteps_loop` relates it to `secondPassLoop`. -/
def secondPassSteps : Nat → Compiler → Except CompErr Compiler
  | 0, c => .ok c
  | n + 1, c =>
    if c.pos < c.tokens.length ∧ c.peek.type ≠ .eof then
      let token := c.peek
      if token.type = .word ∧ toUpperB token.value = strB "MODULE" then
        secondPassSteps n ((c.advance).2.advance).2
      else if token.type = .word ∧ toUpperB token.value = strB "IMPORT" then
        let c := ((c.advance).2.advance).2
        let c :=
          if c.peek.type = .word ∧ toUpperB c.peek.value = strB "AS" then
            ((c.advance).2.advance).2
          else c
        secondPassSteps n c
      else if token.type = .atSign then
        secondPassSteps n (skipWordDefinition c)
      else if token.type = .lbracket then
        .error .fuel
      else
        match compileToken c token with
        | .error e => .error e
        | .ok c => secondPassSteps n (c.advance).2
    else .ok c

/-- The empty REPL state. -/
def c8ReplState : ReplState := ⟨[], [], []⟩

/-- C9: when DIV or MOD traps on a zero divisor, the divisor has already
been popped: the stack at the trap is the pre-instruction stack minus its
top element (so it differs from the pre-instruction stack), and the
dividend is still in place. -/
theorem divmod_zero_divisor_already_popped (s : VMState) (a : Int)
    (rest : List Int) (hpc : s.pc < s.memLen) (hst : s.stack = 0 :: a :: rest) :
    (s.memory s.pc = OpDiv →
      (executeInstruction s).2 = some .divZero ∧
      (executeInstruction s).1.stack = a :: rest ∧
      (executeInstruction s).1.stack ≠ s.stack ∧
      (executeInstruction s).1.pc = s.pc + 1 ∧
      (executeInstruction s).1.output = s.output) ∧
    (s.memory s.pc = OpMod →
      (executeInstruction s).2 = some .modZero ∧
      (executeInstruction s).1.stack = a :: rest ∧
      (executeInstruction s).1.stack ≠ s.stack ∧
      (executeInstruction s).1.pc = s.pc + 1 ∧
      (executeInstruction s).1.output = s.output) := by
  have h1 : ¬s.pc ≥ s.memLen := Nat.not_le.mpr hpc
  have h2 : ¬(rest.length + 1 + 1 < 2) := by omega
  constructor <;> intro hop <;>
    refine ⟨?_, ?_, ?_, ?_, ?_⟩ <;>
      simp [executeInstruction, h1, h2, hop, vmDiv, vmMod, vmPop, hst,
        OpPush, OpPop, OpDup, OpSwap, OpRoll, OpRot, OpAdd, OpSub, OpMul,
        OpDiv, OpMod, OpInc, OpDec, OpNeg, OpAnd, OpOr, OpXor, OpNot, OpShl,
        OpEq, OpLt, OpGt, OpCallStack, OpJmp, OpJz, OpJnz, OpCall, OpRet,
        OpLoad, OpStore, OpOut, OpHalt]

/-- Witness for C9 at the concrete state `c9DivState`. -/
theorem divmod_zero_divisor_already_popped_witness :
    (executeInstruction c9DivState).2 = some .divZero ∧
    (executeInstruction c9DivState).1.stack = [7] := by
  have h := divmod_zero_divisor_already_popped c9DivState 7 []
    (by decide) rfl
  exact ⟨(h.1 rfl).1, (h.1 rfl).2.1⟩

/-- C3 counterexample: immediately after a trap (division by zero here) the
`running` flag is still `true` — only HALT clears it — contradicting the
claim that `running` is false after every trap. -/
theorem trap_leaves_running_true :
    (executeInstruction c3DivState).2 = some .divZero ∧
    (executeInstruction c3DivState).1.running = true := by
  decide

/-- C3 amended: a trap aborts the run immediately — `Run` returns exactly
the trapping instruction's state and error, so no further instructions
execute and no bytes are appended to stdout after the trapping
instruction (the `running` flag, however, is not cleared by a trap). -/
theorem trap_aborts_run_immediately (fuel : Nat) (s : VMState)
    (hrun : s.running = true) (hpc : s.pc < s.memLen)
    (herr : (executeInstruction s).2.isSome = true) :
    runFuel (fuel + 1) s = executeInstruction s ∧
    (runFuel (fuel + 1) s).1.output = (executeInstruction s).1.output := by
  match hstep : executeInstruction s with
  | (s1, some e) => simp [runFuel, hrun, hpc, hstep]
  | (s1, none) => rw [hstep] at herr; simp at herr

/-- Witness for the amended C3 at the concrete DIV-by-zero state. -/
theorem trap_aborts_run_immediately_witness :
    runFuel 6 c3DivState = executeInstruction c3DivState := by
  exact (trap_aborts_run_immediately 5 c3DivState rfl (by decide) (by decide)).1

/-- C1: the 1024-entry return-stack bound is NOT enforced.  Executing
CALLSTACK with the return stack at exactly 1024 entries does not trap (the
dispatch checks against `MaxStackSize = 8192`), and executing CALL does not
trap even at 8192 entries (the dispatch case has no overflow check at all,
unlike the unused `Call` method).  The declared constant
`MaxReturnStackSize = 1024` and the repository README's documented
return-stack bound are contradicted by both dispatch cases. -/
theorem return_stack_bound_not_enforced (rs rs2 : List Int)
    (h1 : rs.length = 1024) (h2 : rs2.length = 8192) :
    (executeInstruction (c1CallstackState rs)).2 = none ∧
    (executeInstruction (c1CallstackState rs)).1.returnStack.length = 1025 ∧
    MaxReturnStackSize = 1024 ∧
    (executeInstruction (c1CallState rs2)).2 = none ∧
    (executeInstruction (c1CallState rs2)).1.returnStack.length = 8193 := by
  refine ⟨?_, ?_, rfl, ?_, ?_⟩ <;>
    simp [executeInstruction, c1CallstackState, c1CallState, vmPop, h1, h2,
      MaxStackSize, pcToI32, decodeI32, u32OfInt, readU32,
      OpPush, OpPop, OpDup, OpSwap, OpRoll, OpRot, OpAdd, OpSub, OpMul,
      OpDiv, OpMod, OpInc, OpDec, OpNeg, OpAnd, OpOr, OpXor, OpNot, OpShl,
      OpEq, OpLt, OpGt, OpCallStack, OpJmp, OpJz, OpJnz, OpCall, OpRet,
      OpLoad, OpStore, OpOut, OpHalt]

/-- Witness for C1 at return stacks of exactly 1024 and 8192 entries. -/
theorem return_stack_bound_not_enforced_witness :
    (executeInstruction (c1CallstackState (List.replicate 1024 7))).2 = none ∧
    (executeInstruction (c1CallstackState (List.replicate 1024 7))).1.returnStack.length
      = 1025 := by
  have h := return_stack_bound_not_enforced (List.replicate 1024 7)
    (List.replicate 8192 7) (by simp only [List.length_replicate]) (by simp only [List.length_replicate])
  exact ⟨h.1, h.2.1⟩

/-- C2: executing a PUSH instruction on a full (8192-entry) data stack does
NOT trap: the dispatch case appends directly, bypassing the `Push` method,
and the stack grows to 8193 entries — while the `Push` method itself, which
the VM's own API and tests use, does trap on the same state. -/
theorem push_opcode_bypasses_overflow_check (st : List Int)
    (h : st.length = 8192) :
    (executeInstruction (c2PushState st)).2 = none ∧
    (executeInstruction (c2PushState st)).1.stack = 42 :: st ∧
    (executeInstruction (c2PushState st)).1.stack.length = 8193 ∧
    (vmPush (c2PushState st) 42).2 = some .overflow := by
  refine ⟨?_, ?_, ?_, ?_⟩ <;>
    simp [executeInstruction, c2PushState, vmPush, h,
      MaxStackSize, decodeI32, readU32,
      OpPush, OpPop, OpDup, OpSwap, OpRoll, OpRot, OpAdd, OpSub, OpMul,
      OpDiv, OpMod, OpInc, OpDec, OpNeg, OpAnd, OpOr, OpXor, OpNot, OpShl,
      OpEq, OpLt, OpGt, OpCallStack, OpJmp, OpJz, OpJnz, OpCall, OpRet,
      OpLoad, OpStore, OpOut, OpHalt]

/-- Helper: `tmod` of a negative dividend by 32 is the negated `tmod` of
its negation. -/
theorem tmod_neg_dividend_32 : ∀ b : Int, b < 0 → Int.tmod b 32 = -Int.tmod (-b) 32 := by
  intro b hb
  cases b with
  | ofNat n => exact absurd hb (Int.not_lt.mpr (Int.natCast_nonneg n))
  | negSucc m => rfl

/-- Helper: for a nonnegative shift argument the Go count equals the
mathematical remainder and lies below 32. -/
theorem goShlCount_of_nonneg {b : Int} (hb : 0 ≤ b) :
    goShlCount b = (b.emod 32).toNat ∧ goShlCount b < 32 := by
  unfold goShlCount u32OfInt
  rw [Int.tmod_eq_emod hb (by norm_num)]
  have h0 : 0 ≤ b % 32 := Int.emod_nonneg b (by norm_num)
  have h32 : b % 32 < 32 := Int.emod_lt_of_pos b (by norm_num)
  rw [Int.emod_eq_of_lt h0 (by omega)]
  exact ⟨rfl, by omega⟩

/-- Helper: for a negative shift argument that is not a multiple of 32 the
Go count is at least 32 (in fact at least `2^32 - 31`). -/
theorem goShlCount_of_neg {b : Int} (hb : b < 0) (hnd : ¬(32 : Int) ∣ b) :
    32 ≤ goShlCount b := by
  have e1 := tmod_neg_dividend_32 b hb
  have h0 : (0 : Int) ≤ -b := by omega
  have hnn : 0 ≤ Int.tmod (-b) 32 := Int.tmod_nonneg _ h0
  have hlt : Int.tmod (-b) 32 < 32 := Int.tmod_lt_of_pos (-b) (by norm_num)
  have hne : Int.tmod b 32 ≠ 0 := fun h => hnd (Int.dvd_iff_tmod_eq_zero.mpr h)
  unfold goShlCount u32OfInt
  omega

/-- C7 counterexample: for `a = 1, b = -1` the code pushes 0 (Go's
`uint32(b % 32)` turns the truncated remainder `-1` into a shift count of
`2^32 - 1`, and a 32-or-more shift of an `int32` is 0), whereas the claimed
`a << (b mod 32)` with a count in `0..31` would give `1 << 31 = -2^31`. -/
theorem shl_negative_count_not_mod_32 :
    (executeInstruction c7ShlState).1.stack = [0] ∧
    specShlResult 1 (-1) = -2147483648 ∧
    (executeInstruction c7ShlState).1.stack ≠ [specShlResult 1 (-1)] := by
  decide

/-- C7 amended: SHL pops `b` then `a` and pushes `a` shifted by Go's count
`uint32(b % 32)` (truncated remainder, then unsigned conversion).  For
`b ≥ 0` that count is exactly `b mod 32 ∈ 0..31` and the result agrees with
the spec's reading; for negative `b` not a multiple of 32 the count is at
least 32 and the pushed result is 0. -/
theorem shl_pushes_go_shift (s : VMState) (a b : Int) (rest : List Int)
    (hpc : s.pc < s.memLen) (hop : s.memory s.pc = OpShl)
    (hst : s.stack = b :: a :: rest) (hrest : rest.length < MaxStackSize) :
    (executeInstruction s).2 = none ∧
    (executeInstruction s).1.stack = goShl32 a (goShlCount b) :: rest ∧
    (0 ≤ b → goShlCount b = (b.emod 32).toNat ∧ goShlCount b < 32 ∧
      goShl32 a (goShlCount b) = specShlResult a b) ∧
    (b < 0 → ¬(32 : Int) ∣ b → goShl32 a (goShlCount b) = 0) := by
  have h1 : ¬s.pc ≥ s.memLen := Nat.not_le.mpr hpc
  have h2 : ¬(rest.length + 1 + 1 < 2) := by omega
  have h3 : ¬(rest.length ≥ MaxStackSize) := Nat.not_le.mpr hrest
  refine ⟨?_, ?_, ?_, ?_⟩
  · simp [executeInstruction, h1, h2, h3, hop, hst, vmShl, vmBinop, vmPop,
      vmPush,
      OpPush, OpPop, OpDup, OpSwap, OpRoll, OpRot, OpAdd, OpSub, OpMul,
      OpDiv, OpMod, OpInc, OpDec, OpNeg, OpAnd, OpOr, OpXor, OpNot, OpShl,
      OpEq, OpLt, OpGt, OpCallStack, OpJmp, OpJz, OpJnz, OpCall, OpRet,
      OpLoad, OpStore, OpOut, OpHalt]
  · simp [executeInstruction, h1, h2, h3, hop, hst, vmShl, vmBinop, vmPop,
      vmPush,
      OpPush, OpPop, OpDup, OpSwap, OpRoll, OpRot, OpAdd, OpSub, OpMul,
      OpDiv, OpMod, OpInc, OpDec, OpNeg, OpAnd, OpOr, OpXor, OpNot, OpShl,
      OpEq, OpLt, OpGt, OpCallStack, OpJmp, OpJz, OpJnz, OpCall, OpRet,
      OpLoad, OpStore, OpOut, OpHalt]
  · intro hb
    obtain ⟨hcnt, hlt⟩ := goShlCount_of_nonneg hb
    refine ⟨hcnt, hlt, ?_⟩
    unfold goShl32 specShlResult
    rw [if_neg (by omega), hcnt]
  · intro hb hnd
    have h := goShlCount_of_neg hb hnd
    unfold goShl32
    rw [if_pos h]

/-- Witness for the amended C7 at `a = 5, b = 3`. -/
theorem shl_pushes_go_shift_witness :
    (executeInstruction c7WitnessState).2 = none ∧
    (executeInstruction c7WitnessState).1.stack = [goShl32 5 (goShlCount 3)] := by
  have h := shl_pushes_go_shift c7WitnessState 5 3 [] (by decide) rfl rfl
    (by decide)
  exact ⟨h.1, h.2.1⟩

/-- C6 counterexample: with format 1 and value 321 the code writes the
UTF-8 encoding of the code point U+0141 (bytes 197, 129), not the low byte
65: two values with the same low byte print differently, so the low byte
does not determine the character. -/
theorem out_char_uses_full_value_not_low_byte :
    (executeInstruction c6OutState).1.output = [197, 129] ∧
    specOutCharBytes 321 = [65] ∧
    (executeInstruction c6OutState).1.output ≠ specOutCharBytes 321 := by
  decide

/-- C6 amended: OUT pops a format flag, then a value, trapping if fewer
than two values are on the data stack; format 0 (and every format other
than 1) appends the value's decimal representation with no surrounding
whitespace, and format 1 appends the value interpreted as a Unicode code
point, UTF-8 encoded (U+FFFD for invalid values) — so the bytes written
depend on the full 32-bit value, not only on its low byte. -/
theorem out_pops_format_then_value (s : VMState) (format value : Int)
    (rest : List Int) (hpc : s.pc < s.memLen) (hop : s.memory s.pc = OpOut) :
    (s.stack = format :: value :: rest →
      (executeInstruction s).2 = none ∧
      (executeInstruction s).1.stack = rest ∧
      (executeInstruction s).1.output =
        s.output ++ (if format = 1 then goFmtC value else decimalBytes value)) ∧
    (s.stack.length < 2 →
      (executeInstruction s).2 = some (.underflow "OUT") ∧
      (executeInstruction s).1.stack = s.stack ∧
      (executeInstruction s).1.output = s.output) := by
  have h1 : ¬s.pc ≥ s.memLen := Nat.not_le.mpr hpc
  constructor
  · intro hst
    have h2 : ¬(rest.length + 1 + 1 < 2) := by omega
    refine ⟨?_, ?_, ?_⟩ <;>
      simp [executeInstruction, h1, h2, hop, hst, vmOut, vmPop,
        OpPush, OpPop, OpDup, OpSwap, OpRoll, OpRot, OpAdd, OpSub, OpMul,
        OpDiv, OpMod, OpInc, OpDec, OpNeg, OpAnd, OpOr, OpXor, OpNot, OpShl,
        OpEq, OpLt, OpGt, OpCallStack, OpJmp, OpJz, OpJnz, OpCall, OpRet,
        OpLoad, OpStore, OpOut, OpHalt]
  · intro hlen
    refine ⟨?_, ?_, ?_⟩ <;>
      simp [executeInstruction, h1, hlen, hop, vmOut, vmPop,
        OpPush, OpPop, OpDup, OpSwap, OpRoll, OpRot, OpAdd, OpSub, OpMul,
        OpDiv, OpMod, OpInc, OpDec, OpNeg, OpAnd, OpOr, OpXor, OpNot, OpShl,
        OpEq, OpLt, OpGt, OpCallStack, OpJmp, OpJz, OpJnz, OpCall, OpRet,
        OpLoad, OpStore, OpOut, OpHalt]

/-- Witness for the amended C6: format 0 writes the decimal byte "5". -/
theorem out_pops_format_then_value_witness :
    (executeInstruction c6WitnessState).2 = none ∧
    (executeInstruction c6WitnessState).1.output = [53] := by
  have h := out_pops_format_then_value c6WitnessState 0 5 [] (by decide) rfl
  refine ⟨(h.1 rfl).1, ?_⟩
  have h3 := (h.1 rfl).2.2
  simpa [decimalBytes] using h3

/-- Witness for C2 at a data stack of exactly 8192 zero entries. -/
theorem push_opcode_bypasses_overflow_check_witness :
    (executeInstruction (c2PushState (List.replicate 8192 0))).2 = none ∧
    (executeInstruction (c2PushState (List.replicate 8192 0))).1.stack
      = 42 :: List.replicate 8192 0 ∧
    (vmPush (c2PushState (List.replicate 8192 0)) 42).2 = some .overflow := by
  have h := push_opcode_bypasses_overflow_check (List.replicate 8192 0) (by simp only [List.length_replicate])
  exact ⟨h.1, h.2.1, h.2.2.2⟩

/-- C5: compiling `5 [ 0 > ] [ DUP 1 - ] |:` and running the image on a
fresh VM terminates successfully (no trap, HALT reached) with final data
stack exactly `[5,4,3,2,1,0]` bottom-to-top (the model's stack list is
top-first, so its reverse is compared). -/
theorem while_combinator_end_to_end :
    (compile luxWhileSource).isOk = true ∧
    (let r := runFuel 200 (newVM luxWhileImage)
     (r.2, r.1.running, r.1.stack.reverse)) =
      (none, false, [5, 4, 3, 2, 1, 0]) := by
  decide

/-- Fuel composition for the second pass: a successful `secondPassSteps`
run (which crosses only plain tokens) is an exact prefix of
`secondPassLoop`'s traversal, so the loop's fuel can be split at it. -/
theorem secondPassSteps_loop :
    ∀ (k : Nat) (c c' : Compiler), secondPassSteps k c = .ok c' →
      ∀ (f : Nat), 1 ≤ f → secondPassLoop (k + f) c = secondPassLoop f c' := by
  intro k
  induction k with
  | zero =>
    intro c c' h f _
    simp only [secondPassSteps, Except.ok.injEq] at h
    subst h
    rw [Nat.zero_add]
  | succ k ih =>
    intro c c' h f hf
    rw [show k + 1 + f = (k + f) + 1 by omega]
    rw [secondPassSteps] at h
    rw [secondPassLoop]
    by_cases hc : c.pos < c.tokens.length ∧ c.peek.type ≠ .eof
    · rw [if_pos hc] at h ⊢
      dsimp only at h ⊢
      by_cases h1 : c.peek.type = .word ∧ toUpperB c.peek.value = strB "MODULE"
      · rw [if_pos h1] at h ⊢
        exact ih _ _ h f hf
      · rw [if_neg h1] at h ⊢
        by_cases h2 : c.peek.type = .word ∧ toUpperB c.peek.value = strB "IMPORT"
        · rw [if_pos h2] at h ⊢
          exact ih _ _ h f hf
        · rw [if_neg h2] at h ⊢
          by_cases h3 : c.peek.type = .atSign
          · rw [if_pos h3] at h ⊢
            exact ih _ _ h f hf
          · rw [if_neg h3] at h ⊢
            by_cases h4 : c.peek.type = .lbracket
            · rw [if_pos h4] at h
              exact Except.noConfusion h
            · rw [if_neg h4] at h ⊢
              rcases hm : compileToken c c.peek with e | c1
              · simp only [hm] at h
                exact Except.noConfusion h
              · simp only [hm] at h ⊢
                exact ih _ _ h f hf
    · rw [if_neg hc] at h ⊢
      injection h with h
      subst h
      obtain ⟨f1, rfl⟩ : ∃ f1, f = f1 + 1 := ⟨f - 1, by omega⟩
      rw [secondPassLoop, if_neg hc]

/-- `compileRun` staged at its pass boundaries: given the first pass's
result and the second pass's result on the header-patched, rewound state,
compiling is `compileFinish` of the second pass's output. -/
theorem compileRun_staged (c0 cF cS : Compiler)
    (h1 : firstPassLoop (((c0.emit [OpJmp]).emit [0, 0, 0, 0]).tokens.length * 2)
      ((c0.emit [OpJmp]).emit [0, 0, 0, 0]) = .ok cF)
    (h2 : secondPassLoop (cF.tokens.length * 2 + 4)
      ⟨cF.tokens, ((c0.emit [OpJmp]).emit [0, 0, 0, 0]).pos,
        setBytes cF.bytecode (c0.bytecode.length + 1)
          (encodeInt32 cF.currentAddress),
        cF.dictionary, cF.quotations, cF.currentModule, cF.imports,
        cF.baseAddr, cF.tempAlloc⟩ = .ok cS) :
    compileRun c0 = compileFinish cS := by
  unfold compileRun
  dsimp only
  rw [h1]
  dsimp only
  rw [h2]
  rfl

/-- `compile` on a source whose tokenization succeeds is `compileRun` on
the initial compiler state over those tokens. -/
theorem compile_tokens_ok (src : List Nat) (toks : List Token)
    (h : tokenize src = .ok toks) :
    compile src = compileRun ⟨toks, 0, [], [], [], [], [], 4096, 0⟩ := by
  unfold compile
  rw [h]

/-- Fuel composition for the main-section patch scan: the scan over
`m + n` positions is the scan over the first `m` followed by the scan over
the next `n` on the partially patched buffer. -/
theorem patchMainLoop_add :
    ∀ (m n j : Nat) (bc : List Nat) (e : Nat) (mp : List (Int × Int)),
      patchMainLoop (m + n) j bc e mp =
        patchMainLoop n (j + m) (patchMainLoop m j bc e mp) e mp := by
  intro m
  induction m with
  | zero =>
    intro n j bc e mp
    rw [Nat.zero_add, Nat.add_zero]
    rw [show patchMainLoop 0 j bc e mp = bc from rfl]
  | succ m ih =>
    intro n j bc e mp
    rw [show m + 1 + n = (m + n) + 1 from by omega]
    simp only [patchMainLoop]
    rw [show j + (m + 1) = (j + 1) + m from by omega]
    exact ih n (j + 1) _ e mp

/-- `compileFinish` staged at its scan boundaries: given the placement
result and the main-section patch scan's result, finishing is
`compileFinish2` of the patched state. -/
theorem compileFinish_staged (c1 cP : Compiler) (mp : List (Int × Int))
    (bcM : List Nat)
    (hplace : placeQuotationsLoop (((c1.emit [OpJmp]).emit [0, 0, 0, 0]).quotations.length) 0
      ((c1.emit [OpJmp]).emit [0, 0, 0, 0]) [] = (cP, mp))
    (hmain : patchMainLoop (((c1.emit [OpJmp]).emit [0, 0, 0, 0]).bytecode.length) 0
      cP.bytecode (((c1.emit [OpJmp]).emit [0, 0, 0, 0]).bytecode.length) mp = bcM) :
    compileFinish c1 =
      compileFinish2 c1.bytecode.length
        (((c1.emit [OpJmp]).emit [0, 0, 0, 0]).bytecode.length)
        { cP with bytecode := bcM } mp := by
  unfold compileFinish
  dsimp only
  rw [hplace]
  dsimp only
  rw [hmain]
  rfl

/-- C4 counterexample: the placeholder of the quotation in `4111 [ ]` is
4111, which EQUALS the legitimately emitted PUSH literal operand 4111, and
the patching scan rewrites that literal: after compilation the literal
PUSH's operand (bytes 6..9) holds 4116, not 4111. -/
theorem quotation_placeholder_collides_with_literal :
    compile c4Source = .ok c4Image ∧
    c4Image.getD 5 0 = OpPush ∧
    readU32L c4Image 6 = 4116 ∧
    readU32L c4Image 6 ≠ 4111 := by
  exact ⟨rfl, by decide, by decide, by decide⟩

set_option maxHeartbeats 4000000 in
/-- C4 amended: quotation placeholders are deterministic 32-bit values (the
address just past the quotation's PUSH, `currentAddress + 5`, for top-level
quotations; `0x1000 + k*0x100` for nested ones) that can collide both with
legitimately emitted literal operands and with each other, and when they do
the patching scan rewrites the wrong pushes. In the image of `4111 [ ]` the
quotation push (offset 10) is patched to the quotation's real address 4116
(where its RET body was placed), but the colliding literal push (offset 5)
is rewritten from 4111 to 4116 as well. In the image of `c4CollideSource`
(`1` repeated 49 times, then `DUP [ [ ] ]`) the top-level quotation's
placeholder 4352 equals its nested quotation's placeholder; the nested
quotation is placed later, its map entry overwrites the parent's, and the
parent quotation's push at offset 251 ends up holding the NESTED
quotation's address 4363 instead of the parent's real address 4357: the
parent body (PUSH 4363; RET) was placed at offset 261 = address 4357, the
nested body (RET) at offset 267 = address 4363, and HALT follows at 268. -/
theorem quotation_placeholder_collisions_mispatch :
    compile c4Source = .ok c4Image ∧
    c4Image.getD 20 0 = OpRet ∧
    readU32L c4Image 11 = 4116 ∧
    readU32L c4Image 6 = 4116 ∧
    secondPassLoop 114 c4BeforeSecond = .ok c4AfterSecond ∧
    c4AfterSecond.quotations.map (fun q => q.tempAddr) = [4352, 4352] ∧
    compile c4CollideSource = .ok c4CollideImage ∧
    c4CollideImage.getD 251 0 = OpPush ∧
    readU32L c4CollideImage 252 = 4363 ∧
    readU32L c4CollideImage 252 ≠ 4357 ∧
    c4CollideImage.getD 261 0 = OpPush ∧
    readU32L c4CollideImage 262 = 4363 ∧
    c4CollideImage.getD 266 0 = OpRet ∧
    c4CollideImage.getD 267 0 = OpRet ∧
    c4CollideImage.getD 268 0 = OpHalt ∧
    c4CollideImage.length = 269 := by
  have hA : secondPassSteps 17 c4BeforeSecond = .ok c4StepA := rfl
  have hB : secondPassSteps 17 c4StepA = .ok c4StepB := rfl
  have hM : secondPassSteps 16 c4StepB = .ok c4StepM := rfl
  have hrest : secondPassLoop 64 c4StepM = .ok c4AfterSecond := rfl
  have hsecond : secondPassLoop 114 c4BeforeSecond = .ok c4AfterSecond := by
    rw [show (114 : Nat) = 17 + 97 from rfl,
      secondPassSteps_loop 17 c4BeforeSecond c4StepA hA 97 (by omega),
      show (97 : Nat) = 17 + 80 from rfl,
      secondPassSteps_loop 17 c4StepA c4StepB hB 80 (by omega),
      show (80 : Nat) = 16 + 64 from rfl,
      secondPassSteps_loop 16 c4StepB c4StepM hM 64 (by omega)]
    exact hrest
  have happ : compileRun c4C0 = compileFinish c4AfterSecond := by
    refine compileRun_staged c4C0 c4AfterFirst c4AfterSecond rfl ?_
    show secondPassLoop 114 c4BeforeSecond = .ok c4AfterSecond
    exact hsecond
  have hplaceC : placeQuotationsLoop 2 0 c4PlaceIn [] = (c4Placed, c4MP) := rfl
  have p1 : patchMainLoop 65 0 c4BC0 261 c4MP = c4BC0 := rfl
  have p2 : patchMainLoop 65 65 c4BC0 261 c4MP = c4BC0 := rfl
  have p3 : patchMainLoop 65 130 c4BC0 261 c4MP = c4BC0 := rfl
  have p4 : patchMainLoop 66 195 c4BC0 261 c4MP = c4BCP := rfl
  have hmainC : patchMainLoop 261 0 c4BC0 261 c4MP = c4BCP := by
    nth_rewrite 1 [show (261 : Nat) = 65 + 196 from rfl]
    rw [patchMainLoop_add 65 196 0 c4BC0 261 c4MP, p1,
      show (0 : Nat) + 65 = 65 from rfl]
    nth_rewrite 1 [show (196 : Nat) = 65 + 131 from rfl]
    rw [patchMainLoop_add 65 131 65 c4BC0 261 c4MP, p2,
      show (65 : Nat) + 65 = 130 from rfl]
    nth_rewrite 1 [show (131 : Nat) = 65 + 66 from rfl]
    rw [patchMainLoop_add 65 66 130 c4BC0 261 c4MP, p3,
      show (130 : Nat) + 65 = 195 from rfl]
    exact p4
  have hstaged := compileFinish_staged c4AfterSecond c4Placed c4MP c4BCP hplaceC hmainC
  have hfin2 : compileFinish2 256 261 c4PatchedC c4MP = .ok c4CollideImage := rfl
  have hfin : compileFinish c4AfterSecond = .ok c4CollideImage := by
    rw [hstaged]
    exact hfin2
  have hcompile : compile c4CollideSource = .ok c4CollideImage := by
    rw [compile_tokens_ok c4CollideSource c4Toks rfl]
    show compileRun c4C0 = .ok c4CollideImage
    rw [happ, hfin]
  exact ⟨rfl, by decide, by decide, by decide, hsecond, by decide, hcompile,
    by decide, by decide, by decide, by decide, by decide, by decide,
    by decide, by decide, by decide⟩

/-- C8: whenever `evaluate` ends in a compile error or a runtime trap, the
persistent REPL state — the saved stack snapshot, the accumulated
definition history, and the recorded word names — is returned unchanged. -/
theorem repl_errors_preserve_state (r : ReplState) (line : List Nat) :
    (evaluate r line).2.isErr = true → (evaluate r line).1 = r := by
  unfold evaluate
  split
  · split
    · split <;> intro h <;> simp [EvalResult.isErr] at h
    · intro h
      simp [EvalResult.isErr] at h
  · dsimp only
    split
    · intro _
      rfl
    · split
      · intro _
        rfl
      · intro h
        simp [EvalResult.isErr] at h

/-- Witness for C8: the line `foo` fails to compile (unknown word) and the
empty state is preserved. -/
theorem repl_errors_preserve_state_witness :
    (evaluate c8ReplState (strB "foo")).2.isErr = true ∧
    (evaluate c8ReplState (strB "foo")).1 = c8ReplState := by
  exact ⟨by decide, repl_errors_preserve_state c8ReplState (strB "foo") (by decide)⟩

end Nux
namespace Nux

theorem isHexDigitB_ne_newline {d : Nat} (h : isHexDigitB d = true) : d ≠ 10 := by
  simp [isHexDigitB, isDigitByte] at h
  omega

theorem readNumberHexLoop_all_hex :
    ∀ (ds : List Nat) (fuel : Nat) (l : Lexer) (acc : List Nat),
      l.input.drop l.pos = ds → l.pos ≤ l.input.length →
      (∀ d ∈ ds, isHexDigitB d = true) → ds.length < fuel →
      readNumberHexLoop fuel l acc =
        (⟨l.input, l.input.length, l.line, l.column + ds.length⟩, acc ++ ds) := by
  intro ds
  induction ds with
  | nil =>
    intro fuel l acc hdrop hle _ hfuel
    have hge : l.input.length ≤ l.pos := by
      by_contra hc
      have := List.drop_eq_nil_iff.mp hdrop
      omega
    have hpos : l.pos = l.input.length := le_antisymm hle hge
    cases fuel with
    | zero => omega
    | succ n =>
      cases l with
      | mk input pos line column =>
        simp at hpos
        subst hpos
        simp [readNumberHexLoop]
  | cons d ds ih =>
    intro fuel l acc hdrop hle hhex hfuel
    have hlt : l.pos < l.input.length := by
      by_contra hc
      rw [List.drop_eq_nil_of_le (by omega)] at hdrop
      exact List.noConfusion hdrop
    have h1 : l.input[l.pos]? = some d := by
      rw [← List.head?_drop, hdrop]
      rfl
    have hpeek : l.peek = d := by
      simp [Lexer.peek, Nat.not_le.mpr hlt, List.getD, h1]
    have hd : isHexDigitB d = true := hhex d (List.mem_cons_self d ds)
    cases fuel with
    | zero => omega
    | succ n =>
      rw [readNumberHexLoop]
      rw [if_pos ⟨hlt, by rw [hpeek]; exact hd⟩]
      have hadv : l.advance = (d, { l with pos := l.pos + 1, column := l.column + 1 }) := by
        simp [Lexer.advance, Nat.not_le.mpr hlt, List.getD, h1,
          isHexDigitB_ne_newline hd]
      rw [hadv]
      dsimp only
      have := ih n { l with pos := l.pos + 1, column := l.column + 1 } (acc ++ [d])
        (by simpa using congrArg List.tail hdrop)
        (by dsimp only; omega)
        (fun x hx => hhex x (List.mem_cons_of_mem d hx))
        (by simpa using Nat.lt_of_succ_lt_succ hfuel)
      rw [this]
      have hcol : l.column + 1 + ds.length = l.column + (ds.length + 1) := by omega
      simp [hcol]

theorem skipWhitespace_nonspace (fuel : Nat) (l : Lexer)
    (h : isSpaceByte l.peek = false) : skipWhitespace fuel l = l := by
  cases fuel <;> simp [skipWhitespace, h]

set_option maxHeartbeats 4000000 in
theorem c10_tokenize (x : Nat) (ds : List Nat) (hx : x = 120 ∨ x = 88)
    (hne : ds ≠ []) (hhex : ∀ d ∈ ds, isHexDigitB d = true) :
    tokenize (45 :: 48 :: x :: ds) =
      .ok [⟨.number, 45 :: 48 :: x :: ds, 1, 1⟩, ⟨.eof, [], 1, 4 + ds.length⟩] := by
  have hx10 : x ≠ 10 := by rcases hx with rfl | rfl <;> decide
  have hloop := readNumberHexLoop_all_hex ds (ds.length + 4)
    ⟨45 :: 48 :: x :: ds, 3, 1, 4⟩ [45, 48, x]
    (by simp only [List.drop_succ_cons, List.drop_zero])
    (by simp only [List.length_cons]; omega) hhex (by omega)
  have f1 : ¬((0 : Nat) ≥ ds.length + 1 + 1 + 1) := by omega
  have f2 : (0 + 1 : Nat) < ds.length + 1 + 1 + 1 := by omega
  have f3 : ¬((1 : Nat) ≥ ds.length + 1 + 1 + 1) := by omega
  have f4 : (1 + 1 : Nat) < ds.length + 1 + 1 + 1 := by omega
  have f5 : ¬((2 : Nat) ≥ ds.length + 1 + 1 + 1) := by omega
  unfold tokenize
  rw [tokenizeLoop]
  rw [nextToken]
  rw [skipWhitespace_nonspace _ _ (by simp [Lexer.peek, isSpaceByte])]
  simp only [Lexer.peek, Lexer.advance, isNumberStart, isDigitByte,
    isSpaceByte, readNumber, List.getD_cons_zero,
    List.getD_cons_succ, List.length_cons, if_true, if_false]
  simp [f1, f2, f3, f4, f5, hx, hx10, hloop]
  rw [tokenizeLoop]
  rw [nextToken]
  rw [skipWhitespace_nonspace _ _ (by simp [Lexer.peek, isSpaceByte])]
  simp [Lexer.peek]

theorem c10_parseNumber (x : Nat) (ds : List Nat) (hx : x = 120 ∨ x = 88) :
    parseNumber ⟨.number, 45 :: 48 :: x :: ds, 1, 1⟩ =
      .error (.invalidNumber (45 :: 48 :: x :: ds) 1) := by
  rcases hx with rfl | rfl <;>
    simp [parseNumber, hasPrefixB, strB, goParseInt, digitsToNat, isDigitByte]

end Nux
namespace Nux

set_option maxHeartbeats 1000000 in
theorem compileRun_number_parse_error (v : List Nat) (tln tcol eln ecol : Nat)
    (e : CompErr) (hp : parseNumber ⟨.number, v, tln, tcol⟩ = .error e) :
    compileRun ⟨[⟨.number, v, tln, tcol⟩, ⟨.eof, [], eln, ecol⟩],
      0, [], [], [], [], [], 4096, 0⟩ = .error e := by
  unfold compileRun
  simp [firstPassLoop, secondPassLoop, Compiler.peek, Compiler.advance,
    Compiler.emit, compileToken, hp, eofToken]

end Nux
namespace Nux

theorem negative_hex_literals_always_rejected (x : Nat) (ds : List Nat)
    (hx : x = 120 ∨ x = 88) (hne : ds ≠ [])
    (hhex : ∀ d ∈ ds, isHexDigitB d = true) :
    tokenize (45 :: 48 :: x :: ds) =
      .ok [⟨.number, 45 :: 48 :: x :: ds, 1, 1⟩, ⟨.eof, [], 1, 4 + ds.length⟩] ∧
    parseNumber ⟨.number, 45 :: 48 :: x :: ds, 1, 1⟩ =
      .error (.invalidNumber (45 :: 48 :: x :: ds) 1) ∧
    compile (45 :: 48 :: x :: ds) =
      .error (.invalidNumber (45 :: 48 :: x :: ds) 1) := by
  have htok := c10_tokenize x ds hx hne hhex
  have hpar := c10_parseNumber x ds hx
  refine ⟨htok, hpar, ?_⟩
  unfold compile
  rw [htok]
  exact compileRun_number_parse_error _ _ _ _ _ _ hpar

theorem negative_hex_literals_always_rejected_witness :
    compile (strB "-0x2A") = .error (.invalidNumber (strB "-0x2A") 1) := by
  exact (negative_hex_literals_always_rejected 120 [50, 65] (Or.inl rfl)
    (by decide) (by decide)).2.2

end Nux
